import Mathlib

/-!
# Verification of the restringer transformation-engine core

This file gives a shallow embedding, in Lean 4, of the core utility modules of
the `restringer` JavaScript deobfuscator, and proves (or refutes) the frozen
specification claims about them.

Embedding conventions:
* JavaScript objects with identity (the script-scoped cache mapping, AST nodes)
  are modelled arena-style: a flat store (`List`) indexed by `Nat`, where the
  index plays the role of object identity (`===`).
* Mutable module-level state is passed explicitly and returned updated.
* The `isolated-vm` execution engine is modelled as an oracle (an abstract
  state-threading function); everything the repository's own code does around
  it is embedded from the source.
* `generateHash` is embedded from its source (null guard, `.src` extraction,
  digest call); the MD5 hex digest itself is a host-crypto primitive
  (`node:crypto`), external to the repository like the isolate and the parser,
  and is threaded as an oracle `md5Hex : String → String`.
* Machine integers do not occur (all JavaScript numbers involved are small
  array indices / node ids); they are modelled as `Nat`.
-/

namespace Restringer

/-! ## Script-scoped cache (src/modules/utils/getCache.js)

The source keeps two module-level variables:
```js
let CACHE = {};
let RELEVANT_SCRIPT_HASH = null;
```
`getCache` returns the shared `CACHE` object (allocating a fresh empty one when
the script hash changed), and `getCache.flush` reassigns `CACHE = {}` keeping
`RELEVANT_SCRIPT_HASH`.

To talk about *object identity* of the returned mapping we model the JS heap of
mapping objects as a list `heap`; an index into it is a handle (object
identity).  `cur` is the index the module variable `CACHE` currently points to,
`owner` is `RELEVANT_SCRIPT_HASH` (`none` = the initial `null`). -/

/-- One JS mapping object: an association list from string keys to values. -/
abbrev JsMap (α : Type) := List (String × α)

/-- State of the getCache module: all mapping objects ever allocated (`heap`),
the index of the object `CACHE` points to (`cur`), and the current
`RELEVANT_SCRIPT_HASH` (`owner`). -/
structure CacheState (α : Type) where
  heap : List (JsMap α)
  cur : Nat
  owner : Option String
  deriving Repr, DecidableEq

/-- `currentScriptHash ?? 'no-hash'` (getCache.js line 23). -/
def normalizeHash (h : Option String) : String := h.getD "no-hash"

/-- `getCache(currentScriptHash)` (getCache.js lines 21-32): on hash mismatch,
replace the mapping with a fresh empty object and adopt the new hash; return
(the handle of) the resident mapping. -/
def getCache {α : Type} (currentScriptHash : Option String) (s : CacheState α) :
    Nat × CacheState α :=
  let scriptHash := normalizeHash currentScriptHash
  if s.owner = some scriptHash then
    (s.cur, s)
  else
    (s.heap.length, ⟨s.heap ++ [[]], s.heap.length, some scriptHash⟩)

/-- `getCache.flush()` (getCache.js lines 38-42): `CACHE = {}` — the module
variable is pointed at a *fresh* empty object — while `RELEVANT_SCRIPT_HASH`
is intentionally preserved. -/
def cacheFlush {α : Type} (s : CacheState α) : CacheState α :=
  ⟨s.heap ++ [[]], s.heap.length, s.owner⟩

/-- The entries of the mapping object that handle `h` denotes. -/
def heapEntries {α : Type} (s : CacheState α) (h : Nat) : JsMap α :=
  s.heap.getD h []

/-- Association-list update: `m[k] = v` on a JS object (overwrite in place if
the key is present — JS objects keep first-insertion key order — append
otherwise). -/
def mapSet {α : Type} (m : JsMap α) (k : String) (v : α) : JsMap α :=
  match m with
  | [] => [(k, v)]
  | e :: rest => if e.1 = k then (k, v) :: rest else e :: mapSet rest k v

/-- Association-list lookup: `m[k]`, `none` playing `undefined`. -/
def mapGet {α : Type} (m : JsMap α) (k : String) : Option α :=
  (m.find? (fun e => e.1 = k)).map (·.2)

/-- A mutation performed *through a handle* obtained from `getCache`:
`cache[k] = v` writes into the mapping object `h` denotes, leaving `cur` and
`owner` untouched. -/
def cacheSetEntry {α : Type} (s : CacheState α) (h : Nat) (k : String) (v : α) :
    CacheState α :=
  ⟨s.heap.set h (mapSet (s.heap.getD h []) k v), s.cur, s.owner⟩

/-- A read through a handle: `cache[k]`. -/
def cacheGetEntry {α : Type} (s : CacheState α) (h : Nat) (k : String) : Option α :=
  mapGet (heapEntries s h) k

theorem mapGet_mapSet_self {α : Type} (m : JsMap α) (k : String) (v : α) :
    mapGet (mapSet m k v) k = some v := by
  induction m with
  | nil => simp [mapSet, mapGet]
  | cons e rest ih =>
    by_cases h : e.1 = k
    · simp [mapSet, h, mapGet]
    · simp [mapSet, h, mapGet, List.find?] at ih ⊢
      exact ih

theorem getD_append_singleton {α : Type} (l : List α) (x d : α) :
    (l ++ [x]).getD l.length d = x := by
  induction l with
  | nil => rfl
  | cons a l ih => simp only [List.cons_append, List.length_cons, List.getD_cons_succ]; exact ih

/-- **C2.** The cache accessor: (i) two `get`s under the same identity, even
with an intervening mutation through the first handle, return the *same*
mapping object and the mutation is visible through the second handle;
(ii) for identities that are distinct after normalization, `get(id1)` then
`get(id2)` yields an empty mapping for `id2` and a subsequent `get(id1)` a
now-empty mapping as well; (iii) `null`/`undefined` identities are normalized
to the fixed fallback identity `"no-hash"` before comparison. -/
theorem getCache_identity_and_invalidation {α : Type}
    (s t : CacheState α) (id id1 id2 : Option String) (k : String) (v : α)
    (hwf : s.cur < s.heap.length)
    (hne : normalizeHash id1 ≠ normalizeHash id2) :
    -- (i) reference identity + mutation visibility
    ((getCache id (cacheSetEntry (getCache id s).2 (getCache id s).1 k v)).1
        = (getCache id s).1 ∧
      cacheGetEntry
        (getCache id (cacheSetEntry (getCache id s).2 (getCache id s).1 k v)).2
        (getCache id (cacheSetEntry (getCache id s).2 (getCache id s).1 k v)).1
        k = some v) ∧
    -- (ii) invalidation on identity change, in both directions
    (heapEntries (getCache id2 (getCache id1 t).2).2
        (getCache id2 (getCache id1 t).2).1 = [] ∧
      heapEntries
        (getCache id1 (getCache id2 (getCache id1 t).2).2).2
        (getCache id1 (getCache id2 (getCache id1 t).2).2).1 = []) ∧
    -- (iii) null/undefined normalize to the fixed fallback identity
    (getCache (α := α) none s = getCache (some "no-hash") s) := by
  refine ⟨?_, ?_, ?_⟩
  · by_cases h : s.owner = some (normalizeHash id)
    · have hg : getCache id s = (s.cur, s) := by simp [getCache, h]
      rw [hg]
      have hg2 : getCache id (cacheSetEntry s s.cur k v)
          = (s.cur, cacheSetEntry s s.cur k v) := by
        simp [getCache, cacheSetEntry, h]
      rw [hg2]
      refine ⟨rfl, ?_⟩
      simp only [cacheGetEntry, heapEntries, cacheSetEntry]
      rw [List.getD_eq_getElem?_getD, List.getElem?_set_self hwf]
      simp [mapGet_mapSet_self]
    · have hg : getCache id s
          = (s.heap.length,
             ⟨s.heap ++ [[]], s.heap.length, some (normalizeHash id)⟩) := by
        simp [getCache, h]
      rw [hg]
      have hg2 : getCache id
            (cacheSetEntry
              (⟨s.heap ++ [[]], s.heap.length, some (normalizeHash id)⟩ : CacheState α)
              s.heap.length k v)
          = (s.heap.length,
             cacheSetEntry
               (⟨s.heap ++ [[]], s.heap.length, some (normalizeHash id)⟩ : CacheState α)
               s.heap.length k v) := by
        simp [getCache, cacheSetEntry]
      rw [hg2]
      refine ⟨rfl, ?_⟩
      simp only [cacheGetEntry, heapEntries, cacheSetEntry]
      rw [List.getD_eq_getElem?_getD, List.getElem?_set_self (by simp)]
      simp [mapGet_mapSet_self]
  · have step : ∀ (u : CacheState α) (i j : Option String),
        normalizeHash i ≠ normalizeHash j →
        heapEntries (getCache j (getCache i u).2).2 (getCache j (getCache i u).2).1 = [] := by
      intro u i j hij
      have howner : ((getCache i u).2).owner = some (normalizeHash i) := by
        by_cases h : u.owner = some (normalizeHash i) <;> simp [getCache, h]
      have fresh : ∀ (w : CacheState α),
          w.owner = some (normalizeHash i) →
          heapEntries (getCache j w).2 (getCache j w).1 = [] := by
        intro w hw
        simp only [getCache]
        rw [if_neg (by rw [hw]; exact fun hh => hij (Option.some.inj hh))]
        simp [heapEntries, getD_append_singleton]
      exact fresh _ howner
    refine ⟨step t id1 id2 hne, ?_⟩
    exact step (getCache id1 t).2 id2 id1 (fun h => hne h.symm)
  · rfl

/-- Witness for C2 at concrete inputs. -/
theorem getCache_identity_and_invalidation_witness :
    ((⟨[[("a", 1)]], 0, some "x"⟩ : CacheState Nat).cur <
        (⟨[[("a", 1)]], 0, some "x"⟩ : CacheState Nat).heap.length) ∧
      normalizeHash (some "x") ≠ normalizeHash (some "y") ∧
      (getCache (α := Nat) none ⟨[[("a", 1)]], 0, some "x"⟩
        = getCache (some "no-hash") ⟨[[("a", 1)]], 0, some "x"⟩) :=
  ⟨by decide, by decide,
    (getCache_identity_and_invalidation
      (⟨[[("a", 1)]], 0, some "x"⟩ : CacheState Nat)
      (⟨[[("a", 1)]], 0, some "x"⟩ : CacheState Nat)
      (some "x") (some "x") (some "y") "k" 7 (by decide) (by decide)).2.2⟩

/-- **C6 (counterexample).** `flush` does *not* empty the resident mapping in
place: the module variable is pointed at a fresh empty object, the previously
resident mapping object keeps its entries and its identity differs from the
one resident after the flush. -/
theorem cacheFlush_not_in_place :
    (cacheFlush (⟨[[("k", 7)]], 0, some "s"⟩ : CacheState Nat)).cur
        ≠ (⟨[[("k", 7)]], 0, some "s"⟩ : CacheState Nat).cur ∧
      heapEntries (cacheFlush (⟨[[("k", 7)]], 0, some "s"⟩ : CacheState Nat))
        (⟨[[("k", 7)]], 0, some "s"⟩ : CacheState Nat).cur = [("k", 7)] := by
  constructor
  · decide
  · rfl

/-- **C6 (amended).** `flush` installs a *fresh empty* mapping (rather than
emptying the old object in place) while preserving the owning script identity,
so a subsequent `get` with the same identity observes the fresh empty mapping
without triggering the identity-mismatch invalidation path (the state is
returned unchanged). -/
theorem cacheFlush_fresh_mapping {α : Type} (s : CacheState α) (id : Option String)
    (hown : s.owner = some (normalizeHash id)) :
    (cacheFlush s).owner = s.owner ∧
      heapEntries (cacheFlush s) (cacheFlush s).cur = [] ∧
      getCache id (cacheFlush s) = ((cacheFlush s).cur, cacheFlush s) := by
  refine ⟨rfl, ?_, ?_⟩
  · simp [cacheFlush, heapEntries, getD_append_singleton]
  · simp [getCache, cacheFlush, hown]

/-- Witness for C6's amended theorem at concrete inputs. -/
theorem cacheFlush_fresh_mapping_witness :
    ((⟨[[("k", 7)]], 0, some "s"⟩ : CacheState Nat).owner
        = some (normalizeHash (some "s"))) ∧
      heapEntries (cacheFlush (⟨[[("k", 7)]], 0, some "s"⟩ : CacheState Nat))
        (cacheFlush (⟨[[("k", 7)]], 0, some "s"⟩ : CacheState Nat)).cur = [] :=
  ⟨by decide,
    (cacheFlush_fresh_mapping (⟨[[("k", 7)]], 0, some "s"⟩ : CacheState Nat)
      (some "s") (by decide)).2.1⟩

/-! ## The syntax-tree node model

flast `ASTNode` objects form cyclic object graphs (children own-reference
their parents, identifiers reference declarations and co-references), so they
are modelled arena-style: an `Arena` is a flat list of `NodeData` records and
nodes reference each other by index.  The index is the node's *object
identity* (what `===`, `Set.has` and `Array.includes` compare); the separate
`nodeId` field is the parse-order counter the source code reads and — in
`createOrderedSrc` — reassigns.  Only fields the embedded modules actually
read are carried. -/

/-- The data of one flast AST node (the fields read by the embedded modules). -/
structure NodeData where
  /-- `node.type` -/
  type : String := ""
  /-- `node.childNodes`, as arena indices -/
  childNodes : List Nat := []
  /-- `node.parentNode` -/
  parentNode : Option Nat := none
  /-- `node.parentKey` -/
  parentKey : String := ""
  /-- `node.start` -/
  startOff : Nat := 0
  /-- `node.end` -/
  endOff : Nat := 0
  /-- `node.src` -/
  src : String := ""
  /-- `node.nodeId` (mutable parse-order counter, distinct from the arena index) -/
  nodeId : Nat := 0
  /-- `node.scriptHash` -/
  scriptHash : Option String := none
  /-- `node.isMarked` -/
  isMarked : Bool := false
  /-- `node.declNode` -/
  declNode : Option Nat := none
  /-- `node.references` -/
  references : List Nat := []
  /-- `node.name` (identifiers) -/
  name : String := ""
  /-- `node.id` (named functions / declarators) -/
  idNode : Option Nat := none
  /-- `node.property` (member expressions) -/
  property : Option Nat := none
  /-- `node.value` for literal nodes, as its string form (only compared against
  method names in `PROPERTIES_THAT_MODIFY_CONTENT`) -/
  litValue : Option String := none
  /-- `node.scope.block`: the node owning this node's scope -/
  scopeBlock : Nat := 0
  /-- `node.scope.through[j].identifier` for each `j` -/
  scopeThrough : List Nat := []
  /-- `node.callee` (call expressions) -/
  callee : Option Nat := none
  /-- `node.expression` (expression statements) -/
  expression : Option Nat := none
  /-- `node.arguments` (call expressions) -/
  argumentsList : List Nat := []
  /-- `node.parentNode.kind` source (variable declarations: var/let/const) -/
  kind : String := ""
  deriving Repr, DecidableEq, Inhabited

/-- An arena of nodes; the list index is object identity. -/
abbrev Arena := List NodeData

/-- Fetch a node's data; out-of-range indices yield the inert default record
(the embedded code only ever dereferences indices of live nodes). -/
def dataOf (ar : Arena) (i : Nat) : NodeData := ar.getD i default

/-- `node.range` = `[node.start, node.end]`. -/
def rangeOf (ar : Arena) (i : Nat) : Nat × Nat :=
  ((dataOf ar i).startOff, (dataOf ar i).endOff)

/-! ## doesDescendantMatchCondition (src/unnamed/part_002)

Iterative stack-based DFS: pop a node, test the condition on *it* (the target
node itself is tested first), push its children so that they are visited in
order.  The JS `while` loop is driven by explicit fuel; the source loop
terminates because the tree is finite, and every theorem quantifies over
sufficient fuel. -/

/-- Result of `doesDescendantMatchCondition`: the source returns `true`/`false`
when `returnNode` is false, and the matching node (or `false`) when
`returnNode` is true. -/
inductive DescMatch where
  | boolRes (b : Bool)
  | nodeRes (n : Nat)
  deriving Repr, DecidableEq

/-- The DFS loop of `doesDescendantMatchCondition` (part_002 lines 23-38).
The source pushes children in reverse so they pop in order; with the list head
as stack top this is `childNodes ++ rest`. -/
def descMatchLoop (ar : Arena) (condition : NodeData → Bool) (returnNode : Bool) :
    Nat → List Nat → DescMatch
  | 0, _ => .boolRes false
  | _ + 1, [] => .boolRes false
  | fuel + 1, cur :: rest =>
    let nd := dataOf ar cur
    if condition nd then
      if returnNode then .nodeRes cur else .boolRes true
    else
      descMatchLoop ar condition returnNode fuel (nd.childNodes ++ rest)

/-- `doesDescendantMatchCondition(targetNode, condition, returnNode)`
(part_002 lines 16-41).  A `null`/`undefined` target or a non-function
condition returns `false` before the traversal starts. -/
def doesDescendantMatchCondition (ar : Arena) (fuel : Nat)
    (targetNode : Option Nat) (condition : Option (NodeData → Bool))
    (returnNode : Bool) : DescMatch :=
  match targetNode, condition with
  | some t, some c => descMatchLoop ar c returnNode fuel [t]
  | _, _ => .boolRes false

/-- Boolean view used by callers that pass `returnNode = false`. -/
def descMatchB (ar : Arena) (fuel : Nat) (targetNode : Option Nat)
    (condition : Option (NodeData → Bool)) : Bool :=
  match doesDescendantMatchCondition ar fuel targetNode condition false with
  | .boolRes b => b
  | .nodeRes _ => true

/-! ## Context collector (src/unnamed/part_001: getDeclarationWithContext) -/

/-- `IRRELEVANT_FILTER_TYPES` (part_001 lines 8-12). -/
def IRRELEVANT_FILTER_TYPES : List String := ["Literal", "Identifier", "MemberExpression"]

/-- `TYPES_TO_COLLECT` (part_001 lines 15-22). -/
def TYPES_TO_COLLECT : List String :=
  ["CallExpression", "ArrowFunctionExpression", "AssignmentExpression",
   "FunctionDeclaration", "FunctionExpression", "VariableDeclarator"]

/-- `SKIP_TRAVERSAL_TYPES` (part_001 lines 25-28). -/
def SKIP_TRAVERSAL_TYPES : List String := ["Literal", "ThisExpression"]

/-- `IF_STATEMENT_KEYS` (part_001 line 31). -/
def IF_STATEMENT_KEYS : List String := ["consequent", "alternate"]

/-- `STANDALONE_WRAPPER_TYPES` (part_001 line 34). -/
def STANDALONE_WRAPPER_TYPES : List String :=
  ["ExpressionStatement", "AssignmentExpression", "VariableDeclarator"]

/-- Modelled from the spec: `PROPERTIES_THAT_MODIFY_CONTENT` is imported from
`src/modules/config.js`, which is not part of the provided sources.  Per spec
§4.1 it lists the names of "mutating method call[s]" on an identifier; we model
it as the standard JS array-mutator names.  No settled claim depends on the
particular contents of this list. -/
def PROPERTIES_THAT_MODIFY_CONTENT : List String :=
  ["push", "pop", "shift", "unshift", "splice", "sort", "reverse"]

/-- The inputs `generateHash` can receive: `null`/`undefined`, a plain
string, or an object carrying a `.src` string property (generateHash.js
distinguishes exactly these three shapes). -/
inductive HashInput where
  | nullish
  | str (s : String)
  | node (src : String)

/-- `generateHash(input)` (src/modules/utils/generateHash.js lines 16-46):
`null`/`undefined` inputs short-circuit to `'null-undefined-hash'`; an object
with a `.src` property hashes `String(input.src)`; anything else hashes
`String(input)` (the embedded callers pass strings, on which `String` is the
identity).  The MD5 hex digest itself is the host-crypto call
`crypto.createHash('md5').update(stringToHash).digest('hex')` (`node:crypto`),
external to the repository like the isolate and the parser; it is threaded as
the oracle `md5Hex`.  The source's `catch` fallback guards only that host
call throwing, so it is unreachable for a total digest oracle. -/
def generateHash (md5Hex : String → String) : HashInput → String
  | .nullish => "null-undefined-hash"
  | .str s => md5Hex s
  | .node src => md5Hex src

/-- `node.parentNode`'s type, `""` when there is no parent (embeds the JS
optional-chain read `node.parentNode?.type`). -/
def parentTypeOf (ar : Arena) (i : Nat) : String :=
  ((dataOf ar i).parentNode.map fun p => (dataOf ar p).type).getD ""

/-- `isConsequentOrAlternate(targetNode)` (part_001 lines 43-51). -/
def isConsequentOrAlternate (ar : Arena) (i : Nat) : Bool :=
  match (dataOf ar i).parentNode with
  | none => false
  | some p =>
    (dataOf ar p).type = "IfStatement" ||
    IF_STATEMENT_KEYS.contains (dataOf ar i).parentKey ||
    IF_STATEMENT_KEYS.contains (dataOf ar p).parentKey ||
    (match (dataOf ar p).parentNode with
     | none => false
     | some pp =>
       (dataOf ar pp).type = "BlockStatement" &&
         IF_STATEMENT_KEYS.contains (dataOf ar pp).parentKey)

/-- `isNodeAnAssignmentToProperty(n)` (part_001 lines 66-95). -/
def isNodeAnAssignmentToProperty (ar : Arena) (i : Nat) : Bool :=
  match (dataOf ar i).parentNode with
  | none => false
  | some p =>
    if (dataOf ar p).type ≠ "MemberExpression" then false
    else if isConsequentOrAlternate ar p then false
    else if parentTypeOf ar p = "AssignmentExpression" && (dataOf ar p).parentKey = "left" then
      true
    else if (dataOf ar i).parentKey = "object" then
      match (dataOf ar p).property with
      | none => false
      | some prop =>
        if (dataOf ar prop).isMarked then true
        else
          -- `property?.value || property?.name` (falsy `.value` falls through)
          let propertyName :=
            match (dataOf ar prop).litValue with
            | some v => if v = "" then (dataOf ar prop).name else v
            | none => (dataOf ar prop).name
          propertyName ≠ "" && PROPERTIES_THAT_MODIFY_CONTENT.contains propertyName
    else false

/-- Modelled from the spec: `isNodeInRanges` is imported from
`src/modules/utils/isNodeInRanges.js`, which is not part of the provided
sources; behavior reconstructed from its unit tests
(tests/modules.utils.test.js `UTILS: isNodeInRanges`): true iff the node's
`[start, end]` span lies inside one of the given ranges (boundaries
inclusive). -/
def isNodeInRanges (ar : Arena) (i : Nat) (ranges : List (Nat × Nat)) : Bool :=
  ranges.any fun r => r.1 ≤ (dataOf ar i).startOff && (dataOf ar i).endOff ≤ r.2

/-- `removeRedundantNodes(nodes)` (part_001 lines 101-113): keep the nodes not
range-contained in another node of the array. -/
def removeRedundantNodes (ar : Arena) (nodes : List Nat) : List Nat :=
  nodes.filter fun t =>
    !(nodes.any fun n =>
      n ≠ t && (dataOf ar n).startOff ≤ (dataOf ar t).startOff &&
        (dataOf ar t).endOff ≤ (dataOf ar n).endOff)

/-- `ref.parentKey === 'left' && ref.parentNode?.type === 'AssignmentExpression'`
(part_001 line 262): the reference is a plain reassignment target. -/
def isReassignmentRef (ar : Arena) (ref : Nat) : Bool :=
  (dataOf ar ref).parentKey = "left" && parentTypeOf ar ref = "AssignmentExpression"

/-- The anti-overwrite test of the post-processing filter (part_001 lines
255-273): a `FunctionDeclaration` whose name has references is kept only if
some reference is *not* a plain reassignment; everything else is kept. -/
def antiOverwriteKeep (ar : Arena) (n : Nat) : Bool :=
  let refs := (((dataOf ar n).idNode).map fun idn => (dataOf ar idn).references).getD []
  if (dataOf ar n).type = "FunctionDeclaration" && !refs.isEmpty then
    refs.any fun ref => !(isReassignmentRef ar ref)
  else true

/-- One step of the post-processing filter loop (part_001 lines 245-274). -/
def filterStep (ar : Arena) (excludeOriginNode : Bool) (originRange : Nat × Nat)
    (acc : List Nat) (n : Nat) : List Nat :=
  if acc.contains n || IRRELEVANT_FILTER_TYPES.contains (dataOf ar n).type ||
      (excludeOriginNode && isNodeInRanges ar n [originRange]) then acc
  else if antiOverwriteKeep ar n then acc ++ [n]
  else acc

/-- The post-processing filter (part_001 lines 241-274): deduplicate, drop
irrelevant types and (optionally) nodes inside the origin's range, and apply
the anti-overwrite rule; insertion order is preserved (`[...filteredNodes]`). -/
def filterCollected (ar : Arena) (excludeOriginNode : Bool)
    (originRange : Nat × Nat) (collected : List Nat) : List Nat :=
  collected.foldl (filterStep ar excludeOriginNode originRange) []

/-- `addToStack(node)` (part_001 lines 150-158): skip nodes already visited,
already stacked, or of a type carrying no evaluable information; otherwise
push on the (FIFO-consumed) stack. -/
def addToStack (ar : Arena) (visited stack : List Nat) (node : Nat) : List Nat :=
  if visited.contains node || stack.contains node ||
      SKIP_TRAVERSAL_TYPES.contains (dataOf ar node).type then stack
  else stack ++ [node]

/-- The anonymous-function-expression parent climb (part_001 lines 213-219):
walk up the parent chain to the nearest standalone wrapper.  The JS `while`
loop is bounded by the parent-chain length; fuel makes it total. -/
def climbToWrapper (ar : Arena) : Nat → Nat → Option Nat
  | 0, _ => none
  | fuel + 1, cur =>
    if STANDALONE_WRAPPER_TYPES.contains (dataOf ar cur).type then some cur
    else
      match (dataOf ar cur).parentNode with
      | some p => climbToWrapper ar fuel p
      | none => none

/-- The node-type-specific expansion (part_001 lines 180-222): the additional
`targetNodes` enqueued beyond the node itself. -/
def expandTargets (ar : Arena) (node : Nat) : List Nat :=
  let nd := dataOf ar node
  if nd.type = "Identifier" then
    let refs := nd.references
    let declTargets : List Nat :=
      match nd.declNode.bind fun d => (dataOf ar d).parentNode with
      | some dp => [dp]
      | none =>
        if refs.length > 0 then
          match nd.parentNode with
          | some p => [p]
          | none => []
        else []
    let refTargets : List Nat :=
      refs.foldl (fun acc ref =>
        if ((dataOf ar ref).parentKey = "arguments" &&
              parentTypeOf ar ref = "CallExpression") ||
            ((dataOf ar ref).parentKey = "left" &&
              parentTypeOf ar ref = "AssignmentExpression" &&
              parentTypeOf ar node ≠ "FunctionDeclaration" &&
              !(isConsequentOrAlternate ar ref)) then
          acc ++ (match (dataOf ar ref).parentNode with
                  | some p => [p]
                  | none => [])
        else if isNodeAnAssignmentToProperty ar ref then
          acc ++ (match (dataOf ar ref).parentNode.bind
                    (fun p => (dataOf ar p).parentNode) with
                  | some pp => [pp]
                  | none => [])
        else acc) []
    declTargets ++ refTargets
  else if nd.type = "MemberExpression" then
    match nd.property.bind fun p => (dataOf ar p).declNode with
    | some d => [d]
    | none => []
  else if nd.type = "FunctionExpression" then
    if nd.idNode = none then
      match climbToWrapper ar (ar.length + 1) node with
      | some tp => [tp]
      | none => []
    else []
  else []

/-- The per-target stack updates (part_001 lines 224-239): push the target
unless visited, then — when the target owns its scope — its out-of-scope
identifiers, then its children, the latter two through `addToStack`. -/
def pushTargets (ar : Arena) (visited : List Nat) :
    List Nat → List Nat → List Nat
  | stack, [] => stack
  | stack, t :: ts =>
    let stack1 := if visited.contains t then stack else stack ++ [t]
    let td := dataOf ar t
    let stack2 :=
      if t = td.scopeBlock then
        td.scopeThrough.foldl (addToStack ar visited) stack1
      else stack1
    let stack3 := td.childNodes.foldl (addToStack ar visited) stack2
    pushTargets ar visited stack3 ts

/-- The worklist loop of `getDeclarationWithContext` (part_001 lines 165-240).
`stack` is consumed from the front (`stack.shift()`); the JS `while` is
fuel-bounded (the source loop terminates through the visited set). If a
reviewed node is marked — or any of its descendants is — all partial results
are discarded and the loop ends (`collected.length = 0; break`). -/
def collectLoop (ar : Arena) :
    Nat → List Nat → List Nat → List Nat → List (Nat × Nat) → List Nat
  | 0, _, _, collected, _ => collected
  | _ + 1, [], _, collected, _ => collected
  | fuel + 1, node :: rest, visited, collected, ranges =>
    if visited.contains node then collectLoop ar fuel rest visited collected ranges
    else
      let visited' := node :: visited
      let nd := dataOf ar node
      if nd.isMarked || descMatchB ar fuel (some node) (some fun d => d.isMarked) then
        []
      else
        let cr :=
          if TYPES_TO_COLLECT.contains nd.type && !(isNodeInRanges ar node ranges) then
            (collected ++ [node], ranges ++ [rangeOf ar node])
          else (collected, ranges)
        let targets := node :: expandTargets ar node
        let stack' := pushTargets ar visited' rest targets
        collectLoop ar fuel stack' visited' cr.1 cr.2

/-- `getDeclarationWithContext(originNode, excludeOriginNode)` (part_001 lines
132-281): null-origin guard, script-scoped cache lookup under the two context
keys, worklist collection, post-processing filter, redundancy removal, and
caching of the result under both keys. -/
def getDeclarationWithContext (md5Hex : String → String) (ar : Arena)
    (fuel : Nat) (originNode : Option Nat)
    (excludeOriginNode : Bool) (cs : CacheState (List Nat)) :
    List Nat × CacheState (List Nat) :=
  match originNode with
  | none => ([], cs)
  | some o =>
    let od := dataOf ar o
    let gc := getCache od.scriptHash cs
    let srcHash := generateHash md5Hex (.str od.src)
    let cacheNameId := "context-" ++ toString od.nodeId ++ "-" ++ srcHash
    let cacheNameSrc := "context-" ++ srcHash
    match (cacheGetEntry gc.2 gc.1 cacheNameId).orElse
        (fun _ => cacheGetEntry gc.2 gc.1 cacheNameSrc) with
    | some cached => (cached, gc.2)
    | none =>
      let collected := collectLoop ar fuel [o] [] [] []
      let filtered := filterCollected ar excludeOriginNode (od.startOff, od.endOff) collected
      let result := removeRedundantNodes ar filtered
      let cs2 := cacheSetEntry gc.2 gc.1 cacheNameId result
      let cs3 := cacheSetEntry cs2 gc.1 cacheNameSrc result
      (result, cs3)

/-- **C1 (counterexample).** As stated, the claim fails: when the script cache
already holds a context entry under one of the node's keys, the cached value
is returned *before* the marked-node abort check runs.  Here node `0` is
marked, yet `collectContext` returns the stale cached `[5]`, not `[]`. -/
theorem getDeclarationWithContext_marked_stale_cache :
    (dataOf [{ type := "Identifier", isMarked := true, src := "x",
               scriptHash := some "s", nodeId := 0 }] 0).isMarked = true ∧
      (getDeclarationWithContext (fun s => s)
        [{ type := "Identifier", isMarked := true, src := "x",
           scriptHash := some "s", nodeId := 0 }]
        9 (some 0) false ⟨[[("context-x", [5])]], 0, some "s"⟩).1 = [5] ∧
      ([5] : List Nat) ≠ [] := by
  refine ⟨rfl, ?_, by decide⟩
  rfl

/-- **C1 (amended).** If the script-scoped cache holds no prior entry under
either of the node's context cache keys, then whenever the node or any of its
descendants is marked for replacement/deletion, `collectContext` discards all
partial results and returns `[]`.  (The marked condition is expressed through
the source's own check: the node's flag, or the descendant search used by the
abort condition.) -/
theorem getDeclarationWithContext_aborts_on_marked (md5Hex : String → String)
    (ar : Arena) (f : Nat)
    (o : Nat) (excl : Bool) (cs : CacheState (List Nat))
    (hmiss1 : cacheGetEntry (getCache (dataOf ar o).scriptHash cs).2
        (getCache (dataOf ar o).scriptHash cs).1
        ("context-" ++ toString (dataOf ar o).nodeId ++ "-" ++
          generateHash md5Hex (.str (dataOf ar o).src)) = none)
    (hmiss2 : cacheGetEntry (getCache (dataOf ar o).scriptHash cs).2
        (getCache (dataOf ar o).scriptHash cs).1
        ("context-" ++ generateHash md5Hex (.str (dataOf ar o).src)) = none)
    (hmarked : (dataOf ar o).isMarked = true ∨
      descMatchB ar f (some o) (some fun d => d.isMarked) = true) :
    (getDeclarationWithContext md5Hex ar (f + 1) (some o) excl cs).1 = [] := by
  have habort : ((dataOf ar o).isMarked ||
      descMatchB ar f (some o) (some fun d => d.isMarked)) = true := by
    rcases hmarked with h | h <;> simp [h]
  simp only [getDeclarationWithContext, hmiss1, hmiss2, Option.orElse]
  simp only [collectLoop, List.contains, List.elem_nil, Bool.false_eq_true,
    if_false, habort, if_true]
  rfl

/-- Witness for C1's amended theorem at a concrete input (fresh empty cache,
marked origin node). -/
theorem getDeclarationWithContext_aborts_on_marked_witness :
    (getDeclarationWithContext (fun s => s)
      [{ type := "Identifier", isMarked := true, src := "x",
         scriptHash := some "s", nodeId := 0 }]
      9 (some 0) false ⟨[[]], 0, some "s"⟩).1 = [] :=
  getDeclarationWithContext_aborts_on_marked (fun s => s)
    [{ type := "Identifier", isMarked := true, src := "x",
       scriptHash := some "s", nodeId := 0 }]
    8 0 false ⟨[[]], 0, some "s"⟩ rfl rfl (Or.inl rfl)

/-- The conditions under which the post-processing filter keeps a collected
node: not of an irrelevant type, not excluded as part of the origin, and
passing the anti-overwrite rule. -/
def keepInFilter (ar : Arena) (excludeOriginNode : Bool)
    (originRange : Nat × Nat) (x : Nat) : Bool :=
  !(IRRELEVANT_FILTER_TYPES.contains (dataOf ar x).type ||
      (excludeOriginNode && isNodeInRanges ar x [originRange])) &&
    antiOverwriteKeep ar x

theorem mem_filterStep (ar : Arena) (excl : Bool) (orange : Nat × Nat)
    (acc : List Nat) (x y : Nat) :
    x ∈ filterStep ar excl orange acc y ↔
      x ∈ acc ∨ (x = y ∧ keepInFilter ar excl orange y = true) := by
  by_cases hy : acc.contains y
  · have hmem : y ∈ acc := by simpa using hy
    simp only [filterStep, hy, Bool.true_or, if_true]
    constructor
    · exact Or.inl
    · rintro (h | ⟨rfl, _⟩)
      · exact h
      · exact hmem
  · by_cases hb : (IRRELEVANT_FILTER_TYPES.contains (dataOf ar y).type ||
        (excl && isNodeInRanges ar y [orange])) = true
    · have hkeep : keepInFilter ar excl orange y = false := by
        simp only [keepInFilter]
        rw [hb]
        rfl
      simp only [filterStep, hy, hb, Bool.false_or, if_true, hkeep]
      constructor
      · exact Or.inl
      · rintro (h | ⟨rfl, hk⟩)
        · exact h
        · cases hk
    · have hb' := hb
      rw [Bool.not_eq_true] at hb'
      by_cases ha : antiOverwriteKeep ar y = true
      · have hkeep : keepInFilter ar excl orange y = true := by
          simp only [keepInFilter]
          rw [hb', ha]
          rfl
        simp only [filterStep, hy, hb', Bool.false_or, Bool.or_false, if_false, ha, if_true,
          Bool.false_eq_true]
        simp [hkeep, List.mem_append, or_comm]
      · have ha' := ha
        rw [Bool.not_eq_true] at ha'
        have hkeep : keepInFilter ar excl orange y = false := by
          simp only [keepInFilter]
          rw [ha', Bool.and_false]
        simp only [filterStep, hy, hb', ha', Bool.false_or, if_false, Bool.false_eq_true,
          hkeep]
        constructor
        · exact Or.inl
        · rintro (h | ⟨rfl, hk⟩)
          · exact h
          · cases hk

theorem mem_filterCollected (ar : Arena) (excl : Bool) (orange : Nat × Nat)
    (collected : List Nat) (x : Nat) :
    x ∈ filterCollected ar excl orange collected ↔
      x ∈ collected ∧ keepInFilter ar excl orange x = true := by
  have aux : ∀ (l acc : List Nat),
      x ∈ l.foldl (filterStep ar excl orange) acc ↔
        x ∈ acc ∨ (x ∈ l ∧ keepInFilter ar excl orange x = true) := by
    intro l
    induction l with
    | nil => intro acc; simp
    | cons y l ih =>
      intro acc
      rw [List.foldl_cons, ih, mem_filterStep]
      constructor
      · rintro ((h | ⟨rfl, hk⟩) | ⟨h, hk⟩)
        · exact Or.inl h
        · exact Or.inr ⟨List.mem_cons_self _ _, hk⟩
        · exact Or.inr ⟨List.mem_cons_of_mem _ h, hk⟩
      · rintro (h | ⟨h, hk⟩)
        · exact Or.inl (Or.inl h)
        · rcases List.mem_cons.mp h with rfl | h
          · exact Or.inl (Or.inr ⟨rfl, hk⟩)
          · exact Or.inr ⟨h, hk⟩
  rw [filterCollected, aux]
  simp

/-- **C4 (counterexample).** As stated, the claim fails at the boundary: a
collected `FunctionDeclaration` whose name has *no* references at all
vacuously satisfies "every reference to its name is a plain reassignment"
(and has no real call site), yet the filter keeps it — the source drops a
declaration only when `n.id?.references?.length` is non-zero. -/
theorem filterCollected_keeps_refless_functionDeclaration :
    (∀ ref ∈ (dataOf [{ type := "FunctionDeclaration", idNode := some 1 },
        { type := "Identifier" }] 1).references,
      isReassignmentRef [{ type := "FunctionDeclaration", idNode := some 1 },
        { type := "Identifier" }] ref = true) ∧
      0 ∈ filterCollected [{ type := "FunctionDeclaration", idNode := some 1 },
        { type := "Identifier" }] false (0, 0) [0] := by
  constructor
  · intro ref h
    simp [dataOf] at h
  · decide

/-- **C4 (amended).** In the post-processing filter, a collected
`FunctionDeclaration` whose name has *at least one* reference is dropped iff
every such reference is a plain reassignment of the name (left side of an
`AssignmentExpression`), i.e. kept iff some real (non-reassignment) reference
exists; declarations with no references are always kept. -/
theorem filterCollected_anti_overwrite (ar : Arena) (collected : List Nat)
    (orange : Nat × Nat) (n idn : Nat)
    (hn : n ∈ collected)
    (hty : (dataOf ar n).type = "FunctionDeclaration")
    (hid : (dataOf ar n).idNode = some idn)
    (hrefs : (dataOf ar idn).references ≠ []) :
    (n ∈ filterCollected ar false orange collected ↔
      ∃ ref ∈ (dataOf ar idn).references, isReassignmentRef ar ref = false) := by
  rw [mem_filterCollected]
  have hkeep : keepInFilter ar false orange n
      = (dataOf ar idn).references.any fun ref => !(isReassignmentRef ar ref) := by
    have hirr : IRRELEVANT_FILTER_TYPES.contains (dataOf ar n).type = false := by
      rw [hty]; decide
    have hne : ((dataOf ar idn).references.isEmpty) = false := by
      cases h : (dataOf ar idn).references with
      | nil => exact absurd h hrefs
      | cons a l => rfl
    simp only [keepInFilter, hirr, Bool.false_and, Bool.or_false, Bool.false_or,
      Bool.not_false, Bool.true_and]
    simp [antiOverwriteKeep, hid, hty, hne]
  rw [hkeep]
  simp [hn, List.any_eq_true, Bool.not_eq_true']

/-- Witness for C4's amended theorem at a concrete input: a function
declaration with one non-reassignment reference is kept. -/
theorem filterCollected_anti_overwrite_witness :
    (0 ∈ [0] ∧
      (dataOf [{ type := "FunctionDeclaration", idNode := some 1 },
        { type := "Identifier", references := [2] },
        { type := "Identifier", parentKey := "callee" }] 0).type
        = "FunctionDeclaration" ∧
      (dataOf [{ type := "FunctionDeclaration", idNode := some 1 },
        { type := "Identifier", references := [2] },
        { type := "Identifier", parentKey := "callee" }] 0).idNode = some 1 ∧
      (dataOf [{ type := "FunctionDeclaration", idNode := some 1 },
        { type := "Identifier", references := [2] },
        { type := "Identifier", parentKey := "callee" }] 1).references ≠ []) ∧
      0 ∈ filterCollected [{ type := "FunctionDeclaration", idNode := some 1 },
        { type := "Identifier", references := [2] },
        { type := "Identifier", parentKey := "callee" }] false (0, 0) [0] := by
  refine ⟨⟨by decide, by decide, by decide, by decide⟩, ?_⟩
  exact (filterCollected_anti_overwrite
    [{ type := "FunctionDeclaration", idNode := some 1 },
      { type := "Identifier", references := [2] },
      { type := "Identifier", parentKey := "callee" }] [0] (0, 0) 0 1
    (by decide) (by decide) (by decide) (by decide)).mpr
    ⟨2, by decide, by decide⟩

/-! ## Value→node constructor (src/modules/utils/createNewNode.js)

Sandbox result values are discriminated by `getObjType` (the
`Object.prototype.toString` tag) and converted to AST nodes; `BAD_VALUE` is
the failure sentinel.  Nodes are modelled by the inductive `VNode`, which
deliberately *includes* the sentinel as a constructor so that "a node with
`BAD_VALUE` embedded inside it" is expressible. -/

/-- The `value` field of a `Literal` node: the original JS primitive.
JS numbers are carried by their `String(value)` form together with a
negative-zero flag (the only two observations the source makes of them). -/
inductive LitVal where
  | str (s : String)
  | num (repr : String) (negZero : Bool)
  | boolean (b : Bool)
  deriving Repr, DecidableEq

/-- AST node values produced by the sandbox pipeline, including the
`BAD_VALUE` sentinel. -/
inductive VNode where
  | badValue
  | literal (value : LitVal) (raw : String)
  | nullLiteral
  | bigintLiteral (digits : String)
  | regexLiteral (pattern flags : String)
  | unaryExpression (op : Char) (argument : VNode)
  | identifier (name : String)
  | arrayExpression (elements : List VNode)
  | objectExpression (properties : List (VNode × VNode))
  | symbolCall (args : List VNode)
  deriving Repr, Inhabited

/-- JS values as classified by `getObjType`
(src/modules/utils/getObjType.js).  `num repr negZero` is a JS number whose
`String(value)` is `repr` and whose `Object.is(value, -0)` is `negZero`;
`func src` is a callable whose `toString()` is `src`; `hostOther` covers every
tag outside the source's switch (e.g. `'Date'`), which leaves the initial
`BAD_VALUE` in place. -/
inductive Value where
  | astNode (n : VNode)
  | str (s : String)
  | num (repr : String) (negZero : Bool)
  | boolean (b : Bool)
  | array (elements : List Value)
  | object (entries : List (String × Value))
  | undef
  | nullValue
  | bigint (digits : String)
  | symbol (description : Option String)
  | func (srcText : String)
  | regexp (pattern flags : String)
  | hostOther (tag : String)
  deriving Repr, Inhabited

/-- `isNaN(parseInt(s))` (createNewNode.js line 30): true iff, after optional
leading whitespace and an optional sign, the string does not start with a
decimal digit.  (The `0x` radix detail of `parseInt` is irrelevant here: the
check only gates which of two always-successful node shapes is built.) -/
def jsParseIntIsNaN (s : List Char) : Bool :=
  let t := s.dropWhile fun c => c = ' ' || c = '\t' || c = '\n' || c = '\r'
  let t2 := match t with
    | '-' :: rest => rest
    | '+' :: rest => rest
    | _ => t
  match t2 with
  | c :: _ => !c.isDigit
  | [] => true

/-- The shared `String`/`Number`/`Boolean` conversion block
(createNewNode.js lines 20-67), recursing on the character list of
`String(value)`.  `orig` is the original primitive (the `value:` field of a
produced `Literal`); `negZero` is `Object.is(value, -0)`. -/
def strNumBoolNode (orig : LitVal) (cs : List Char) (negZero : Bool) : VNode :=
  match cs with
  | c :: r :: rest =>
    if c = '-' || c = '+' || c = '!' then
      if jsParseIntIsNaN (r :: rest) &&
          !((r :: rest) = "Infinity".data || (r :: rest) = "NaN".data) then
        .literal orig (String.mk (c :: r :: rest))
      else
        .unaryExpression c (strNumBoolNode (.str (String.mk (r :: rest))) (r :: rest) false)
    else if (c :: r :: rest) = "Infinity".data || (c :: r :: rest) = "NaN".data then
      .identifier (String.mk (c :: r :: rest))
    else if _hng : negZero then
      .unaryExpression '-' (strNumBoolNode (.num "0" false) ['0'] false)
    else
      .literal orig (String.mk (c :: r :: rest))
  | cs' =>
    -- strings of length ≤ 1 cannot take the unary branch (`valueStr.length > 1`)
    if cs' = "Infinity".data || cs' = "NaN".data then .identifier (String.mk cs')
    else if _hng : negZero then
      .unaryExpression '-' (strNumBoolNode (.num "0" false) ['0'] false)
    else .literal orig (String.mk cs')
termination_by cs.length + (if negZero then 2 else 0)
decreasing_by all_goals simp_all <;> omega

/-- Is this node the `BAD_VALUE` sentinel? -/
def isBadValue : VNode → Bool
  | .badValue => true
  | _ => false

/-- `createNewNode(value)` (createNewNode.js lines 12-175).  `parseFn` is the
external `parseCode` (flast): it yields the `body` node list of the parsed
program, or `none` when parsing throws (native/unparsable callables).  The
source's element/property loops throw on the first `BAD_VALUE` child, which
the surrounding `try` turns into an overall `BAD_VALUE`; this is embedded as
the `any isBadValue` guard. -/
def createNewNode (parseFn : String → Option (List VNode)) : Value → VNode
  | .astNode n => n
  | .str s => strNumBoolNode (.str s) s.data false
  | .num repr negZero => strNumBoolNode (.num repr negZero) repr.data negZero
  | .boolean b =>
    strNumBoolNode (.boolean b) (if b then "true".data else "false".data) false
  | .array elements =>
    let rs := elements.attach.map fun e => createNewNode parseFn e.1
    if rs.any isBadValue then .badValue else .arrayExpression rs
  | .object entries =>
    let ps := entries.attach.map fun e =>
      (createNewNode parseFn (Value.str e.1.1), createNewNode parseFn e.1.2)
    if ps.any (fun p => isBadValue p.1 || isBadValue p.2) then .badValue
    else .objectExpression ps
  | .undef => .identifier "undefined"
  | .nullValue => .nullLiteral
  | .bigint digits => .bigintLiteral digits
  | .symbol (some desc) => .symbolCall [createNewNode parseFn (.str desc)]
  | .symbol none => .symbolCall []
  | .func srcText =>
    match parseFn srcText with
    | some (b0 :: _) => b0
    | _ => .badValue
  | .regexp pattern flags => .regexLiteral pattern flags
  | .hostOther _ => .badValue
termination_by v => sizeOf v
decreasing_by
  all_goals simp_wf
  all_goals try (have h := List.sizeOf_lt_of_mem e.2; omega)
  all_goals (rcases e with ⟨⟨k, v⟩, hm⟩; have h := List.sizeOf_lt_of_mem hm; simp at h ⊢; omega)

/-- No `BAD_VALUE` occurs anywhere inside the node. -/
def badFree : VNode → Bool
  | .badValue => false
  | .literal _ _ => true
  | .nullLiteral => true
  | .bigintLiteral _ => true
  | .regexLiteral _ _ => true
  | .unaryExpression _ a => badFree a
  | .identifier _ => true
  | .arrayExpression es => es.attach.all fun e => badFree e.1
  | .objectExpression ps => ps.attach.all fun e => badFree e.1.1 && badFree e.1.2
  | .symbolCall args => args.attach.all fun e => badFree e.1
termination_by n => sizeOf n
decreasing_by
  all_goals simp_wf
  all_goals try (have h := List.sizeOf_lt_of_mem e.2; omega)
  all_goals (rcases e with ⟨⟨k, v⟩, hm⟩; have h := List.sizeOf_lt_of_mem hm; simp at h ⊢; omega)

/-- Every AST node passed through `value` (the `'Node'` case) is itself free
of the sentinel.  (Real flast nodes never contain `BAD_VALUE`.) -/
def valueNodesBadFree : Value → Bool
  | .astNode n => badFree n
  | .array es => es.attach.all fun e => valueNodesBadFree e.1
  | .object ps => ps.attach.all fun e => valueNodesBadFree e.1.2
  | _ => true
termination_by v => sizeOf v
decreasing_by
  all_goals simp_wf
  all_goals try (have h := List.sizeOf_lt_of_mem e.2; omega)
  all_goals (rcases e with ⟨⟨k, v⟩, hm⟩; have h := List.sizeOf_lt_of_mem hm; simp at h ⊢; omega)

theorem isBadValue_false_iff (n : VNode) : isBadValue n = false ↔ n ≠ .badValue := by
  cases n <;> simp [isBadValue]

theorem strNumBoolNode_badFree (orig : LitVal) (cs : List Char) (negZero : Bool) :
    badFree (strNumBoolNode orig cs negZero) = true := by
  induction orig, cs, negZero using strNumBoolNode.induct
  all_goals rw [strNumBoolNode]
  all_goals (try split) <;> simp_all [badFree]

theorem createNewNode_array_fails_closed (parseFn : String → Option (List VNode))
    (elements : List Value) (e : Value) (he : e ∈ elements)
    (hbad : createNewNode parseFn e = .badValue) :
    createNewNode parseFn (.array elements) = .badValue := by
  rw [createNewNode, if_pos]
  apply List.any_eq_true.mpr
  refine ⟨createNewNode parseFn e, List.mem_map.mpr ⟨⟨e, he⟩, List.mem_attach _ _, rfl⟩, ?_⟩
  rw [hbad]
  rfl

theorem createNewNode_object_fails_closed (parseFn : String → Option (List VNode))
    (entries : List (String × Value)) (kv : String × Value) (hkv : kv ∈ entries)
    (hbad : createNewNode parseFn (.str kv.1) = .badValue ∨
      createNewNode parseFn kv.2 = .badValue) :
    createNewNode parseFn (.object entries) = .badValue := by
  rw [createNewNode, if_pos]
  apply List.any_eq_true.mpr
  refine ⟨(createNewNode parseFn (Value.str kv.1), createNewNode parseFn kv.2),
    List.mem_map.mpr ⟨⟨kv, hkv⟩, List.mem_attach _ _, rfl⟩, ?_⟩
  rcases hbad with h | h <;> rw [h] <;> simp [isBadValue]

theorem createNewNode_badFree (parseFn : String → Option (List VNode))
    (hp : ∀ s l, parseFn s = some l → ∀ n ∈ l, badFree n = true) (v : Value)
    (hv : valueNodesBadFree v = true)
    (hres : createNewNode parseFn v ≠ .badValue) :
    badFree (createNewNode parseFn v) = true := by
  induction v using createNewNode.induct parseFn with
  | case1 n =>
    rw [createNewNode]
    rw [valueNodesBadFree] at hv
    exact hv
  | case2 s => rw [createNewNode]; exact strNumBoolNode_badFree _ _ _
  | case3 repr negZero => rw [createNewNode]; exact strNumBoolNode_badFree _ _ _
  | case4 b => rw [createNewNode]; exact strNumBoolNode_badFree _ _ _
  | case5 elements rs hany ih =>
    rw [createNewNode] at hres ⊢
    cases hh : (List.map (fun e => createNewNode parseFn e.1) elements.attach).any
        isBadValue with
    | true =>
      rw [hh] at hres
      exact absurd (if_pos rfl) hres
    | false =>
      rw [hh] at hres
      simp only [Bool.false_eq_true, if_false] at hres ⊢
      rw [valueNodesBadFree] at hv
      rw [badFree]
      rw [List.all_eq_true] at hv ⊢
      rintro ⟨x, hx⟩ -
      rcases List.mem_map.mp hx with ⟨⟨e, he⟩, -, rfl⟩
      refine ih ⟨e, he⟩ (hv ⟨e, he⟩ (List.mem_attach _ _)) ?_
      rw [← isBadValue_false_iff]
      cases hb : isBadValue (createNewNode parseFn e)
      · rfl
      · have hmem : createNewNode parseFn e ∈
            List.map (fun e => createNewNode parseFn e.1) elements.attach :=
          List.mem_map.mpr ⟨⟨e, he⟩, List.mem_attach _ _, rfl⟩
        have hcontra := List.any_eq_true.mpr ⟨createNewNode parseFn e, hmem, hb⟩
        rw [hh] at hcontra
        exact (Bool.false_ne_true hcontra).elim
  | case6 elements rs hany ih =>
    rw [createNewNode] at hres ⊢
    cases hh : (List.map (fun e => createNewNode parseFn e.1) elements.attach).any
        isBadValue with
    | true =>
      rw [hh] at hres
      exact absurd (if_pos rfl) hres
    | false =>
      rw [hh] at hres
      simp only [Bool.false_eq_true, if_false] at hres ⊢
      rw [valueNodesBadFree] at hv
      rw [badFree]
      rw [List.all_eq_true] at hv ⊢
      rintro ⟨x, hx⟩ -
      rcases List.mem_map.mp hx with ⟨⟨e, he⟩, -, rfl⟩
      refine ih ⟨e, he⟩ (hv ⟨e, he⟩ (List.mem_attach _ _)) ?_
      rw [← isBadValue_false_iff]
      cases hb : isBadValue (createNewNode parseFn e)
      · rfl
      · have hmem : createNewNode parseFn e ∈
            List.map (fun e => createNewNode parseFn e.1) elements.attach :=
          List.mem_map.mpr ⟨⟨e, he⟩, List.mem_attach _ _, rfl⟩
        have hcontra := List.any_eq_true.mpr ⟨createNewNode parseFn e, hmem, hb⟩
        rw [hh] at hcontra
        exact (Bool.false_ne_true hcontra).elim
  | case7 entries ps hany ihk ihv =>
    rw [createNewNode] at hres ⊢
    cases hh : ((List.map (fun e =>
        (createNewNode parseFn (Value.str e.1.1), createNewNode parseFn e.1.2))
        entries.attach).any fun p => isBadValue p.1 || isBadValue p.2) with
    | true =>
      rw [hh] at hres
      exact absurd (if_pos rfl) hres
    | false =>
      rw [hh] at hres
      simp only [Bool.false_eq_true, if_false] at hres ⊢
      rw [valueNodesBadFree] at hv
      rw [badFree]
      rw [List.all_eq_true] at hv ⊢
      rintro ⟨x, hx⟩ -
      rcases List.mem_map.mp hx with ⟨⟨⟨ek, ev⟩, he⟩, -, rfl⟩
      have hkey : badFree (createNewNode parseFn (Value.str ek)) = true := by
        rw [createNewNode]; exact strNumBoolNode_badFree _ _ _
      have hvalNotBad : createNewNode parseFn ev ≠ .badValue := by
        rw [← isBadValue_false_iff]
        cases hb : isBadValue (createNewNode parseFn ev)
        · rfl
        · have hmem : (createNewNode parseFn (Value.str ek), createNewNode parseFn ev) ∈
              List.map (fun e =>
                (createNewNode parseFn (Value.str e.1.1), createNewNode parseFn e.1.2))
                entries.attach :=
            List.mem_map.mpr ⟨⟨(ek, ev), he⟩, List.mem_attach _ _, rfl⟩
          have hcontra : ((List.map (fun e =>
              (createNewNode parseFn (Value.str e.1.1), createNewNode parseFn e.1.2))
              entries.attach).any fun p => isBadValue p.1 || isBadValue p.2) = true :=
            List.any_eq_true.mpr
              ⟨(createNewNode parseFn (Value.str ek), createNewNode parseFn ev), hmem,
                show (isBadValue (createNewNode parseFn (Value.str ek))
                    || isBadValue (createNewNode parseFn ev)) = true by
                  rw [hb, Bool.or_true]⟩
          rw [hh] at hcontra
          exact (Bool.false_ne_true hcontra).elim
      have hval : badFree (createNewNode parseFn ev) = true :=
        ihv ⟨⟨ek, ev⟩, he⟩ (hv ⟨⟨ek, ev⟩, he⟩ (List.mem_attach _ _)) hvalNotBad
      simp [hkey, hval]
  | case8 entries ps hany ihk ihv =>
    rw [createNewNode] at hres ⊢
    cases hh : ((List.map (fun e =>
        (createNewNode parseFn (Value.str e.1.1), createNewNode parseFn e.1.2))
        entries.attach).any fun p => isBadValue p.1 || isBadValue p.2) with
    | true =>
      rw [hh] at hres
      exact absurd (if_pos rfl) hres
    | false =>
      rw [hh] at hres
      simp only [Bool.false_eq_true, if_false] at hres ⊢
      rw [valueNodesBadFree] at hv
      rw [badFree]
      rw [List.all_eq_true] at hv ⊢
      rintro ⟨x, hx⟩ -
      rcases List.mem_map.mp hx with ⟨⟨⟨ek, ev⟩, he⟩, -, rfl⟩
      have hkey : badFree (createNewNode parseFn (Value.str ek)) = true := by
        rw [createNewNode]; exact strNumBoolNode_badFree _ _ _
      have hvalNotBad : createNewNode parseFn ev ≠ .badValue := by
        rw [← isBadValue_false_iff]
        cases hb : isBadValue (createNewNode parseFn ev)
        · rfl
        · have hmem : (createNewNode parseFn (Value.str ek), createNewNode parseFn ev) ∈
              List.map (fun e =>
                (createNewNode parseFn (Value.str e.1.1), createNewNode parseFn e.1.2))
                entries.attach :=
            List.mem_map.mpr ⟨⟨(ek, ev), he⟩, List.mem_attach _ _, rfl⟩
          have hcontra : ((List.map (fun e =>
              (createNewNode parseFn (Value.str e.1.1), createNewNode parseFn e.1.2))
              entries.attach).any fun p => isBadValue p.1 || isBadValue p.2) = true :=
            List.any_eq_true.mpr
              ⟨(createNewNode parseFn (Value.str ek), createNewNode parseFn ev), hmem,
                show (isBadValue (createNewNode parseFn (Value.str ek))
                    || isBadValue (createNewNode parseFn ev)) = true by
                  rw [hb, Bool.or_true]⟩
          rw [hh] at hcontra
          exact (Bool.false_ne_true hcontra).elim
      have hval : badFree (createNewNode parseFn ev) = true :=
        ihv ⟨⟨ek, ev⟩, he⟩ (hv ⟨⟨ek, ev⟩, he⟩ (List.mem_attach _ _)) hvalNotBad
      simp [hkey, hval]
  | case9 => rw [createNewNode]; simp [badFree]
  | case10 => rw [createNewNode]; simp [badFree]
  | case11 digits => rw [createNewNode]; simp [badFree]
  | case12 desc ih =>
    have hval : createNewNode parseFn (.symbol (some desc)) =
        .symbolCall [createNewNode parseFn (.str desc)] := by
      simp [createNewNode.eq_def]
    rw [hval, badFree, List.all_eq_true]
    rintro ⟨x, hx⟩ -
    rcases List.mem_singleton.mp hx with rfl
    have hstr : createNewNode parseFn (Value.str desc)
        = strNumBoolNode (.str desc) desc.data false := by
      simp [createNewNode]
    show badFree (createNewNode parseFn (Value.str desc)) = true
    rw [hstr]
    exact strNumBoolNode_badFree _ _ _
  | case13 => simp [createNewNode, badFree]
  | case14 srcText b0 tail hparse =>
    have hval : createNewNode parseFn (.func srcText) = b0 := by
      simp only [createNewNode.eq_def, hparse]
    rw [hval]
    exact hp srcText (b0 :: tail) hparse b0 (List.mem_cons_self _ _)
  | case15 srcText hfail =>
    refine absurd ?_ hres
    rw [createNewNode.eq_def]
    rcases hp' : parseFn srcText with - | l
    · simp [hp']
    · rcases l with - | ⟨b0, tail⟩
      · simp [hp']
      · exact (hfail b0 tail hp').elim
  | case16 pattern flags => rw [createNewNode]; simp [badFree]
  | case17 tag => exact absurd (by rw [createNewNode]) hres

/-- **C8.** The value→node constructor fails closed: an array with an
unconvertible element, or an object with an unconvertible key or value,
converts to `BAD_VALUE` as a whole; and whenever the conversion does *not*
return `BAD_VALUE`, the produced node contains no `BAD_VALUE` anywhere inside
it (given that AST nodes passed through, and nodes produced by the external
parser, are themselves sentinel-free). -/
theorem createNewNode_fails_closed (parseFn : String → Option (List VNode))
    (elements : List Value) (e : Value) (entries : List (String × Value))
    (kv : String × Value) (v : Value)
    (he : e ∈ elements) (hkv : kv ∈ entries)
    (hebad : createNewNode parseFn e = .badValue)
    (hkvbad : createNewNode parseFn (.str kv.1) = .badValue ∨
      createNewNode parseFn kv.2 = .badValue)
    (hp : ∀ s l, parseFn s = some l → ∀ n ∈ l, badFree n = true)
    (hv : valueNodesBadFree v = true)
    (hres : createNewNode parseFn v ≠ .badValue) :
    createNewNode parseFn (.array elements) = .badValue ∧
      createNewNode parseFn (.object entries) = .badValue ∧
      badFree (createNewNode parseFn v) = true :=
  ⟨createNewNode_array_fails_closed parseFn elements e he hebad,
    createNewNode_object_fails_closed parseFn entries kv hkv hkvbad,
    createNewNode_badFree parseFn hp v hv hres⟩

/-- Witness for C8 at concrete inputs: the array `[Date-like host object]` and
the object `{"k": Date-like}` both convert to `BAD_VALUE`; the array `["a"]`
converts to a sentinel-free node. -/
theorem createNewNode_fails_closed_witness :
    ((Value.hostOther "Date") ∈ [Value.hostOther "Date"] ∧
      ("k", Value.hostOther "Date") ∈ [("k", Value.hostOther "Date")] ∧
      createNewNode (fun _ => none) (Value.hostOther "Date") = .badValue ∧
      valueNodesBadFree Value.undef = true ∧
      createNewNode (fun _ => none) Value.undef ≠ .badValue) ∧
      (createNewNode (fun _ => none) (.array [Value.hostOther "Date"]) = .badValue ∧
        createNewNode (fun _ => none) (.object [("k", Value.hostOther "Date")]) = .badValue ∧
        badFree (createNewNode (fun _ => none) Value.undef) = true) := by
  have hbad : createNewNode (fun _ : String => (none : Option (List VNode)))
      (Value.hostOther "Date") = .badValue := by
    simp [createNewNode]
  have hundef : createNewNode (fun _ : String => (none : Option (List VNode)))
      Value.undef = .identifier "undefined" := by
    simp [createNewNode]
  have hnotbad : createNewNode (fun _ : String => (none : Option (List VNode)))
      Value.undef ≠ .badValue := by
    rw [hundef]
    exact fun h => VNode.noConfusion h
  refine ⟨⟨List.mem_singleton.mpr rfl, List.mem_singleton.mpr rfl, hbad,
    by simp [valueNodesBadFree], hnotbad⟩, ?_⟩
  exact createNewNode_fails_closed (fun _ => none)
    [Value.hostOther "Date"] (Value.hostOther "Date")
    [("k", Value.hostOther "Date")] ("k", Value.hostOther "Date")
    Value.undef
    (List.mem_singleton.mpr rfl) (List.mem_singleton.mpr rfl)
    hbad (Or.inr hbad) (fun s l h => Option.noConfusion h)
    (by simp [valueNodesBadFree]) hnotbad

/-! ## Safe-evaluation sandbox (src/modules/utils/evalInVm.js and the
`Sandbox` class of src/unnamed/part_004)

The `isolated-vm` engine is external: it is modelled as a state-threading
oracle `exec` over the *full script text* handed to
`Isolate.compileScriptSync`.  `Sandbox.run` (part_004 line 89) prepends
`'delete Math.random; delete Date;\n\n'` to the code before compiling, and
`runSync` either returns a `Reference` or throws (also on timeout and memory
exhaustion); `copySync` extracts the value and may itself throw. -/

/-- A single quote character (`'`). -/
def singleQuote : Char := Char.ofNat 39

/-- JS `\s` for the characters that occur in trap patterns (space, tab,
newline, carriage return, vertical tab, form feed). -/
def isJsSpace (c : Char) : Bool :=
  c = ' ' || c = '\t' || c = '\n' || c = '\r' || c = Char.ofNat 11 || c = Char.ofNat 12

/-- Match a literal pattern case-insensitively (the trap regexes carry the
`i` flag); the pattern is given lowercase.  Returns the rest of the input. -/
def matchCI : List Char → List Char → Option (List Char)
  | [], s => some s
  | _ :: _, [] => none
  | p :: ps, c :: cs => if c.toLower = p then matchCI ps cs else none

/-- Match one literal character. -/
def matchLit (x : Char) : List Char → Option (List Char)
  | [] => none
  | c :: cs => if c = x then some cs else none

/-- Match `(true|[1-9][0-9]*)` (greedy digits). -/
def matchTrueOrNum (s : List Char) : Option (List Char) :=
  match matchCI "true".data s with
  | some rest => some rest
  | none =>
    match s with
    | [] => none
    | c :: cs =>
      if c.isDigit && c ≠ '0' then some (cs.dropWhile Char.isDigit) else none

/-- Match `/while\s*\(\s*(true|[1-9][0-9]*)\s*\)\s*\{\s*}/i` at the head of
the input (evalInVm.js line 19); the pattern has no backtracking ambiguity, so
a greedy scan is exact. -/
def whileTrapMatch (s : List Char) : Option (List Char) := do
  let s ← matchCI "while".data s
  let s ← matchLit '(' (s.dropWhile isJsSpace)
  let s ← matchTrueOrNum (s.dropWhile isJsSpace)
  let s ← matchLit ')' (s.dropWhile isJsSpace)
  let s ← matchLit '{' (s.dropWhile isJsSpace)
  matchLit '}' (s.dropWhile isJsSpace)

/-- Match `/debugger/i` at the head of the input (evalInVm.js line 23). -/
def debuggerTrapMatch (s : List Char) : Option (List Char) :=
  matchCI "debugger".data s

/-- Match a single or double quote. -/
def matchQuote : List Char → Option (List Char)
  | [] => none
  | c :: cs => if c = '"' || c = singleQuote then some cs else none

/-- Match `/["']debu["']\s*\+\s*["']gger["']/i` at the head of the input
(evalInVm.js line 27). -/
def concatTrapMatch (s : List Char) : Option (List Char) := do
  let s ← matchQuote s
  let s ← matchCI "debu".data s
  let s ← matchQuote s
  let s ← matchLit '+' (s.dropWhile isJsSpace)
  let s ← matchQuote (s.dropWhile isJsSpace)
  let s ← matchCI "gger".data s
  matchQuote s

/-- Global regex replacement: leftmost, non-overlapping, continuing after each
match (`String.replace` with a `g` flag).  Every matcher consumes at least one
character on success; the fuel (instantiated with the input length) makes the
scan total. -/
def replaceScan (matcher : List Char → Option (List Char))
    (replacement : List Char) : Nat → List Char → List Char
  | 0, s => s
  | _ + 1, [] => []
  | fuel + 1, c :: cs =>
    match matcher (c :: cs) with
    | some rest => replacement ++ replaceScan matcher replacement fuel rest
    | none => c :: replaceScan matcher replacement fuel cs

/-- Apply one trap replacement globally over a string. -/
def applyTrap (matcher : List Char → Option (List Char)) (replacement : String)
    (s : String) : String :=
  ⟨replaceScan matcher replacement.data s.data.length s.data⟩

/-- The `TRAP_STRINGS` loop (evalInVm.js lines 17-30 and 68-71): neutralize
the unconditional-infinite-loop trap, the `debugger` trap and its
string-concatenation disguise, in order. -/
def neutralizeTraps (s : String) : String :=
  applyTrap concatTrapMatch ("\"debu\" + \"gge_\"")
    (applyTrap debuggerTrapMatch "\"debugge_\"" (applyTrap whileTrapMatch "while (0) {}" s))

/-- `BAD_TYPES` (evalInVm.js line 8). -/
def BAD_TYPES : List String := ["Promise"]

/-- What the embedded code observes of the `Reference` returned by a
successful `runSync`: `vm.isReference(res)`, `getObjType(res)`, and the
outcome of `res.copySync()` (`none` models `copySync` throwing). -/
structure RunRef where
  isRef : Bool
  objType : String
  copy : Option Value

/-- Outcome of compiling-and-running a script inside the isolate: a thrown
error, a timeout, memory exhaustion (each surfacing as an exception into the
caller's `try`), or a reference result. -/
inductive VmOutcome where
  | throws
  | timesOut
  | memoryExceeded
  | ok (r : RunRef)

/-- The external execution environment: the isolate oracle (threading its
own state `σ`, so repeated runs may behave differently), the two host-derived
`MATCHING_OBJECT_KEYS` signatures of `console` (evalInVm.js lines 11-14), the
external `parseCode`, and the host-crypto MD5 digest used by `generateHash`. -/
structure SandboxEnv (σ : Type) where
  exec : String → σ → VmOutcome × σ
  consoleSigs : List String
  parseFn : String → Option (List VNode)
  md5Hex : String → String

/-- The deterministic-evaluation preamble of `Sandbox.run`
(part_004 line 89). -/
def vmDeletePreamble : String := "delete Math.random; delete Date;\n\n"

/-- `Sandbox.run(code)` (part_004 lines 87-94). -/
def sandboxRun {σ : Type} (env : SandboxEnv σ) (code : String) (st : σ) :
    VmOutcome × σ :=
  env.exec (vmDeletePreamble ++ code) st

/-- `Object.keys(res)` on the copied value: own enumerable keys for objects,
index strings for strings and arrays; `none` models the `TypeError` thrown on
`null`/`undefined`. -/
def jsKeys : Value → Option (List String)
  | .object entries => some (entries.map (·.1))
  | .str s => some ((List.range s.length).map toString)
  | .array elems => some ((List.range elems.length).map toString)
  | .undef => none
  | .nullValue => none
  | _ => some []

/-- Lexicographic code-unit comparison, as JS string `<`/sort uses. -/
def charListLe : List Char → List Char → Bool
  | [], _ => true
  | _ :: _, [] => false
  | a :: as, b :: bs => if a = b then charListLe as bs else a.toNat < b.toNat

/-- String `≤` by code units. -/
def strLe (a b : String) : Bool := charListLe a.data b.data

/-- Insert into a sorted list of strings. -/
def insertSorted (x : String) : List String → List String
  | [] => [x]
  | y :: ys => if strLe y x then y :: insertSorted x ys else x :: y :: ys

/-- `Array.prototype.sort()` on strings (lexicographic). -/
def sortStrings (l : List String) : List String :=
  l.foldl (fun acc x => insertSorted x acc) []

/-- `MAX_CACHE_SIZE` (evalInVm.js line 33). -/
def MAX_CACHE_SIZE : Nat := 100

/-- `evalInVm(stringToEval, sb)` (evalInVm.js lines 60-93): content-keyed
cache (with clear-all eviction at the size ceiling), trap neutralization,
sandboxed run, reference/bad-type filtering, `console`-signature special case,
and value→node conversion.  Every failure path (run throwing / timing out /
exceeding memory, `copySync` or `Object.keys` throwing) is caught and leaves
the pre-seeded `BAD_VALUE` cache entry as the result. -/
def evalInVm {σ : Type} (env : SandboxEnv σ) (stringToEval : String)
    (cache : JsMap VNode) (st : σ) : VNode × JsMap VNode × σ :=
  let cacheName := "eval-" ++ generateHash env.md5Hex (.str stringToEval)
  match mapGet cache cacheName with
  | some v => (v, cache, st)
  | none =>
    let cache1 := if MAX_CACHE_SIZE ≤ cache.length then [] else cache
    let cache2 := mapSet cache1 cacheName .badValue
    match sandboxRun env (neutralizeTraps stringToEval) st with
    | (.throws, st') => (.badValue, cache2, st')
    | (.timesOut, st') => (.badValue, cache2, st')
    | (.memoryExceeded, st') => (.badValue, cache2, st')
    | (.ok r, st') =>
      if r.isRef && !(BAD_TYPES.contains r.objType) then
        match r.copy with
        | none => (.badValue, cache2, st')
        | some res =>
          match jsKeys res with
          | none => (.badValue, cache2, st')
          | some ks =>
            let objKeys := String.join (sortStrings ks)
            if env.consoleSigs.contains objKeys then
              (VNode.identifier "console",
                mapSet cache2 cacheName (VNode.identifier "console"), st')
            else
              let newNode := createNewNode env.parseFn res
              (newNode, mapSet cache2 cacheName newNode, st')
      else (.badValue, cache2, st')

/-- The cache entry under the evaluated string's key always ends up holding
exactly the value `evalInVm` returns (the entry is pre-seeded with `BAD_VALUE`
and overwritten only together with the returned result). -/
theorem evalInVm_caches {σ : Type} (env : SandboxEnv σ) (s : String)
    (cache : JsMap VNode) (st : σ) :
    mapGet (evalInVm env s cache st).2.1 ("eval-" ++ generateHash env.md5Hex (.str s))
      = some (evalInVm env s cache st).1 := by
  rcases hg : mapGet cache ("eval-" ++ generateHash env.md5Hex (.str s)) with - | v
  · simp only [evalInVm, hg]
    split
    all_goals try split
    all_goals try split
    all_goals try split
    all_goals try split
    all_goals simp [mapGet_mapSet_self]
  · simp [evalInVm, hg]

/-- **C7.** Sandbox determinism: (i) evaluating the same fragment text twice
(threading the cache and whatever state the underlying isolate carries)
returns the same result both times — the second call is served from the
content-keyed cache; (ii)/(iii) with the non-deterministic built-ins deleted
by the run preamble (so that the isolate's execution of the prefixed
`Math.random()` / `Date.now()` script throws), both evaluate to `BAD_VALUE`
on a cache miss. -/
theorem evalInVm_deterministic :
    (∀ (σ : Type) (env : SandboxEnv σ) (s : String) (cache : JsMap VNode) (st : σ),
      (evalInVm env s (evalInVm env s cache st).2.1 (evalInVm env s cache st).2.2).1
        = (evalInVm env s cache st).1) ∧
    (∀ (σ : Type) (env : SandboxEnv σ) (cache : JsMap VNode) (st st' : σ),
      mapGet cache ("eval-" ++ generateHash env.md5Hex (.str "Math.random()")) = none →
      env.exec (vmDeletePreamble ++ "Math.random()") st = (.throws, st') →
      (evalInVm env "Math.random()" cache st).1 = .badValue) ∧
    (∀ (σ : Type) (env : SandboxEnv σ) (cache : JsMap VNode) (st st' : σ),
      mapGet cache ("eval-" ++ generateHash env.md5Hex (.str "Date.now()")) = none →
      env.exec (vmDeletePreamble ++ "Date.now()") st = (.throws, st') →
      (evalInVm env "Date.now()" cache st).1 = .badValue) := by
  refine ⟨?_, ?_, ?_⟩
  · intro σ env s cache st
    have h := evalInVm_caches env s cache st
    rcases hr : evalInVm env s cache st with ⟨v1, c1, st1⟩
    rw [hr] at h
    show (evalInVm env s c1 st1).1 = v1
    simp only [evalInVm]
    simp only at h
    rw [h]
  · intro σ env cache st st' hmiss hexec
    have hneu : neutralizeTraps "Math.random()" = "Math.random()" := by decide
    simp only [evalInVm, hmiss, sandboxRun, hneu, hexec]
  · intro σ env cache st st' hmiss hexec
    have hneu : neutralizeTraps "Date.now()" = "Date.now()" := by decide
    simp only [evalInVm, hmiss, sandboxRun, hneu, hexec]

/-- Witness for C7 at a concrete environment: an isolate oracle that throws
on every script (as the real one does once `Math.random`/`Date` are deleted),
with an empty cache. -/
theorem evalInVm_deterministic_witness :
    (mapGet ([] : JsMap VNode)
        ("eval-" ++ generateHash (fun s => s) (.str "Math.random()")) = none ∧
      (SandboxEnv.mk (σ := Unit) (fun _ st => (.throws, st)) [] (fun _ => none)
        (fun s => s)).exec
        (vmDeletePreamble ++ "Math.random()") () = (.throws, ())) ∧
      (evalInVm (SandboxEnv.mk (σ := Unit) (fun _ st => (.throws, st)) [] (fun _ => none)
          (fun s => s))
        "Math.random()" [] ()).1 = .badValue :=
  ⟨⟨rfl, rfl⟩,
    evalInVm_deterministic.2.1 Unit
      (SandboxEnv.mk (fun _ st => (.throws, st)) [] (fun _ => none) (fun s => s))
      [] () () rfl rfl⟩

/-- **C3.** `evalInVm` resolves every failure of the sandboxed execution —
a thrown error, a timeout, or memory exhaustion — to the `BAD_VALUE`
sentinel rather than an exception (the returned `VNode` is the pre-seeded
`BAD_VALUE` cache entry in all three cases). -/
theorem evalInVm_failure_is_badValue (σ : Type) (env : SandboxEnv σ) (s : String)
    (cache : JsMap VNode) (st st' : σ)
    (hmiss : mapGet cache ("eval-" ++ generateHash env.md5Hex (.str s)) = none) :
    (env.exec (vmDeletePreamble ++ neutralizeTraps s) st = (.throws, st') →
      (evalInVm env s cache st).1 = .badValue) ∧
    (env.exec (vmDeletePreamble ++ neutralizeTraps s) st = (.timesOut, st') →
      (evalInVm env s cache st).1 = .badValue) ∧
    (env.exec (vmDeletePreamble ++ neutralizeTraps s) st = (.memoryExceeded, st') →
      (evalInVm env s cache st).1 = .badValue) := by
  refine ⟨?_, ?_, ?_⟩ <;> intro hexec <;>
    simp only [evalInVm, hmiss, sandboxRun, hexec]

/-- Witness for C3 at a concrete environment (an oracle that times out). -/
theorem evalInVm_failure_is_badValue_witness :
    (mapGet ([] : JsMap VNode) ("eval-" ++ generateHash (fun s => s) (.str "x")) = none ∧
      (SandboxEnv.mk (σ := Unit) (fun _ st => (.timesOut, st)) [] (fun _ => none)
        (fun s => s)).exec
        (vmDeletePreamble ++ neutralizeTraps "x") () = (.timesOut, ())) ∧
      (evalInVm (SandboxEnv.mk (σ := Unit) (fun _ st => (.timesOut, st)) [] (fun _ => none)
          (fun s => s))
        "x" [] ()).1 = .badValue :=
  ⟨⟨rfl, rfl⟩,
    (evalInVm_failure_is_badValue Unit
      (SandboxEnv.mk (fun _ st => (.timesOut, st)) [] (fun _ => none) (fun s => s))
      "x" [] () () rfl).2.1 rfl⟩

/-- The spec's end-to-end trap example (`"while(true) {}; 'safe'"`), built
without literal quote characters. -/
def trapExample : String :=
  "while(true) {}; " ++ ⟨[singleQuote]⟩ ++ "safe" ++ ⟨[singleQuote]⟩

/-- Its neutralized form (`"while (0) {}; 'safe'"`). -/
def trapExampleNeutralized : String :=
  "while (0) {}; " ++ ⟨[singleQuote]⟩ ++ "safe" ++ ⟨[singleQuote]⟩

/-- **C9.** Trap neutralization end to end: the unconditional infinite loop in
`"while(true) {}; 'safe'"` is textually rewritten to `while (0) {}` *before*
execution (first conjunct, a pure computation of the embedded trap scanner),
so the sandboxed run sees only the neutralized script; when the isolate then
terminates normally with the string value `"safe"` — instead of timing out —
the evaluation returns the literal node `"safe"`. -/
theorem evalInVm_trap_neutralization :
    neutralizeTraps trapExample = trapExampleNeutralized ∧
      ∀ (σ : Type) (env : SandboxEnv σ) (cache : JsMap VNode) (st st' : σ),
        mapGet cache ("eval-" ++ generateHash env.md5Hex (.str trapExample)) = none →
        env.exec (vmDeletePreamble ++ trapExampleNeutralized) st
          = (.ok ⟨true, "String", some (.str "safe")⟩, st') →
        env.consoleSigs.contains "0123" = false →
        (evalInVm env trapExample cache st).1 = .literal (.str "safe") "safe" := by
  have hneu : neutralizeTraps trapExample = trapExampleNeutralized := by decide
  refine ⟨hneu, ?_⟩
  intro σ env cache st st' hmiss hexec hsig
  have hnode : createNewNode env.parseFn (Value.str "safe")
      = .literal (.str "safe") "safe" := by
    have h1 : createNewNode env.parseFn (Value.str "safe")
        = strNumBoolNode (.str "safe") "safe".data false := by
      simp [createNewNode]
    rw [h1, strNumBoolNode]
    rfl
  simp only [evalInVm, hmiss, sandboxRun, hneu, hexec]
  simp only [jsKeys]
  have hkeys : String.join (sortStrings ((List.range "safe".length).map toString))
      = "0123" := by decide
  rw [hkeys, hsig]
  simp [hnode, BAD_TYPES]

/-- Witness for C9 at a concrete environment: an isolate oracle returning the
string `"safe"` for every script. -/
theorem evalInVm_trap_neutralization_witness :
    (mapGet ([] : JsMap VNode)
        ("eval-" ++ generateHash (fun s => s) (.str trapExample)) = none ∧
      (SandboxEnv.mk (σ := Unit)
          (fun _ st => (.ok ⟨true, "String", some (.str "safe")⟩, st)) []
          (fun _ => none) (fun s => s)).exec (vmDeletePreamble ++ trapExampleNeutralized) ()
        = (.ok ⟨true, "String", some (.str "safe")⟩, ()) ∧
      (SandboxEnv.mk (σ := Unit)
          (fun _ st => (.ok ⟨true, "String", some (.str "safe")⟩, st)) []
          (fun _ => none) (fun s => s)).consoleSigs.contains "0123" = false) ∧
      (evalInVm (SandboxEnv.mk (σ := Unit)
          (fun _ st => (.ok ⟨true, "String", some (.str "safe")⟩, st)) []
          (fun _ => none) (fun s => s)) trapExample [] ()).1 = .literal (.str "safe") "safe" :=
  ⟨⟨rfl, rfl, rfl⟩,
    evalInVm_trap_neutralization.2 Unit
      (SandboxEnv.mk (fun _ st => (.ok ⟨true, "String", some (.str "safe")⟩, st)) []
        (fun _ => none) (fun s => s)) [] () () rfl rfl rfl⟩

/-! ## Source reconstructor (src/modules/utils/createOrderedSrc.js)

`createOrderedSrc` mutates its inputs: it replaces array entries with wrapper
/ renamed nodes and reassigns `nodeId`s, so it is embedded as a function from
(and to) the node arena together with the caller's (aliased) array.  The
external `parseCode` used by `addNameToFE` is an oracle returning the data of
a freshly allocated node. -/

/-- `LARGE_NUMBER` (createOrderedSrc.js line 4): `999e8`. -/
def LARGE_NUMBER : Nat := 99900000000

/-- `TYPES_REQUIRING_SEMICOLON` (createOrderedSrc.js line 6). -/
def TYPES_REQUIRING_SEMICOLON : List String := ["VariableDeclarator", "AssignmentExpression"]

/-- Case-sensitive literal match, returning the rest of the input. -/
def matchLits : List Char → List Char → Option (List Char)
  | [], s => some s
  | _ :: _, [] => none
  | p :: ps, c :: cs => if c = p then matchLits ps cs else none

/-- Match `/function[^(]*/` at the head of the input
(createOrderedSrc.js line 5). -/
def funcStartMatch (s : List Char) : Option (List Char) :=
  (matchLits "function".data s).map fun rest => rest.dropWhile (fun c => c ≠ '(')

/-- Replace the *first* regex match (`String.replace` without a `g` flag). -/
def replaceFirstScan (matcher : List Char → Option (List Char))
    (replacement : List Char) : Nat → List Char → List Char
  | 0, s => s
  | _ + 1, [] => []
  | fuel + 1, c :: cs =>
    match matcher (c :: cs) with
    | some rest => replacement ++ rest
    | none => c :: replaceFirstScan matcher replacement fuel cs

/-- Update a node's `nodeId` in place. -/
def setNodeId (ar : Arena) (i v : Nat) : Arena :=
  match ar[i]? with
  | some nd => ar.set i { nd with nodeId := v }
  | none => ar

/-- `nodes[i].parentNode?.id?.name` (`undefined` at any broken link maps to
`none`). -/
def parentIdName (ar : Arena) (n : Nat) : Option String :=
  ((dataOf ar n).parentNode.bind fun p => (dataOf ar p).idNode).map
    fun idn => (dataOf ar idn).name

/-- `name = name || 'func' + n.nodeId` (createOrderedSrc.js line 24; a missing
or empty — falsy — name falls back to the default). -/
def feName (ar : Arena) (n : Nat) (name? : Option String) : String :=
  match name? with
  | some nm => if nm = "" then "func" ++ toString (dataOf ar n).nodeId else nm
  | none => "func" ++ toString (dataOf ar n).nodeId

/-- `funcSrc` (createOrderedSrc.js line 25): the node's source with the first
`function[^(]*` rewritten to carry the name, wrapped in `(`...`);`. -/
def feFuncSrc (ar : Arena) (n : Nat) (name? : Option String) : String :=
  "(" ++
    String.mk (replaceFirstScan funcStartMatch ("function " ++ feName ar n name?).data
      (dataOf ar n).src.data.length (dataOf ar n).src.data) ++ ");"

/-- `addNameToFE(n, name)` (createOrderedSrc.js lines 23-38): re-parse the
renamed source and return a fresh node carrying the original `nodeId` and the
new source — or `none` when parsing fails. -/
def addNameToFE (parseNode : String → Option NodeData) (ar : Arena) (n : Nat)
    (name? : Option String) : Option (Arena × Nat) :=
  match parseNode (feFuncSrc ar n name?) with
  | some data =>
    some (ar ++ [{ data with nodeId := (dataOf ar n).nodeId, src := feFuncSrc ar n name? }],
      ar.length)
  | none => none

/-- `nodes[i].callee.type`, `""` when absent. -/
def calleeTypeOf (ar : Arena) (i : Nat) : String :=
  ((dataOf ar i).callee.map fun c => (dataOf ar c).type).getD ""

/-- `nodes[i].expression.callee.type`, `""` when absent. -/
def exprCalleeTypeOf (ar : Arena) (i : Nat) : String :=
  (((dataOf ar i).expression.bind fun ex => (dataOf ar ex).callee).map
    fun c => (dataOf ar c).type).getD ""

/-- `nodes[i].expression.arguments`, `[]` when absent. -/
def exprArgsOf (ar : Arena) (i : Nat) : List Nat :=
  ((dataOf ar i).expression.map fun ex => (dataOf ar ex).argumentsList).getD []

/-- The `maxArgNodeId` accumulation (createOrderedSrc.js lines 73-79):
`arg?.declNode?.nodeId > maxArgNodeId` with a strict `>`. -/
def maxArgNodeId (ar : Arena) (args : List Nat) : Nat :=
  args.foldl (fun acc a =>
    match (dataOf ar a).declNode with
    | some d => if acc < (dataOf ar d).nodeId then (dataOf ar d).nodeId else acc
    | none => acc) 0

/-- One iteration of the `createOrderedSrc` loop body (createOrderedSrc.js
lines 61-102) on entry `e`: returns the (possibly mutated / extended) arena
and the node left in `nodes[i]` / fed to the seen-set. -/
def stepNode (parseNode : String → Option NodeData) (preserveOrder : Bool)
    (ar : Arena) (e : Nat) : Arena × Nat :=
  if (dataOf ar e).type = "CallExpression" then
    if parentTypeOf ar e = "ExpressionStatement" then
      let pid := (dataOf ar e).parentNode.getD 0
      if preserveOrder = false ∧ exprCalleeTypeOf ar pid = "FunctionExpression" then
        let m := maxArgNodeId ar (exprArgsOf ar pid)
        let newId := if m ≠ 0 then m + 1 else (dataOf ar pid).nodeId + LARGE_NUMBER
        (setNodeId ar pid newId, pid)
      else (ar, pid)
    else if calleeTypeOf ar e = "FunctionExpression" then
      if preserveOrder = false then
        match addNameToFE parseNode ar e (parentIdName ar e) with
        | some r => (setNodeId r.1 r.2 ((dataOf r.1 r.2).nodeId + LARGE_NUMBER), r.2)
        | none => (ar, e)
      else (ar, e)
    else (ar, e)
  else if (dataOf ar e).type = "FunctionExpression" ∧ (dataOf ar e).idNode = none then
    match addNameToFE parseNode ar e (parentIdName ar e) with
    | some r => r
    | none => (ar, e)
  else (ar, e)

/-- The full loop (createOrderedSrc.js lines 61-109), threading the arena and
returning the entries as left in the caller's (mutated) array. -/
def runLoop (parseNode : String → Option NodeData) (preserveOrder : Bool) :
    Arena → List Nat → Arena × List Nat
  | ar, [] => (ar, [])
  | ar, e :: es =>
    let r := stepNode parseNode preserveOrder ar e
    let rest := runLoop parseNode preserveOrder r.1 es
    (rest.1, r.2 :: rest.2)

/-- The `seenNodes`/`processedNodes` accumulation (createOrderedSrc.js lines
58-59 and 104-108): keep first occurrences. -/
def dedupeFirst (seen : List Nat) : List Nat → List Nat
  | [] => []
  | x :: xs => if seen.contains x then dedupeFirst seen xs
               else x :: dedupeFirst (x :: seen) xs

/-- Stable insertion into a nodeId-sorted list (equal keys keep earlier
entries first, as `Array.prototype.sort`'s stable sort with the `sortByNodeId`
comparator of createOrderedSrc.js line 14). -/
def insertByNodeId (ar : Arena) (x : Nat) : List Nat → List Nat
  | [] => [x]
  | y :: ys => if (dataOf ar y).nodeId ≤ (dataOf ar x).nodeId
               then y :: insertByNodeId ar x ys
               else x :: y :: ys

/-- `processedNodes.sort(sortByNodeId)` (createOrderedSrc.js line 112). -/
def sortNodesById (ar : Arena) (l : List Nat) : List Nat :=
  l.foldl (fun acc x => insertByNodeId ar x acc) []

/-- One output line (createOrderedSrc.js lines 116-122): `kind` lead-in for
declarators, `;` terminator for declarators and assignment expressions. -/
def renderNode (ar : Arena) (i : Nat) : String :=
  let nd := dataOf ar i
  let lead := if nd.type = "VariableDeclarator" then
      ((nd.parentNode.map fun p => (dataOf ar p).kind).getD "") ++ " "
    else ""
  let terminator := if TYPES_REQUIRING_SEMICOLON.contains nd.type then ";" else ""
  lead ++ nd.src ++ terminator ++ "\n"

/-- The output accumulation (createOrderedSrc.js lines 115-121). -/
def renderAll (ar : Arena) (l : List Nat) : String :=
  l.foldl (fun acc i => acc ++ renderNode ar i) ""

/-- The result of `createOrderedSrc`: the returned text, the mutated arena,
and the caller's array as mutated in place. -/
structure OrderedSrcResult where
  out : String
  arena : Arena
  nodes : List Nat

/-- `createOrderedSrc(nodes, preserveOrder)` (createOrderedSrc.js lines
57-125). -/
def createOrderedSrc (parseNode : String → Option NodeData) (ar : Arena)
    (nodes : List Nat) (preserveOrder : Bool) : OrderedSrcResult :=
  let r := runLoop parseNode preserveOrder ar nodes
  let processed := dedupeFirst [] r.2
  let sorted := sortNodesById r.1 processed
  ⟨renderAll r.1 sorted, r.1, r.2⟩

theorem dataOf_oor (ar : Arena) (i : Nat) (h : ar.length ≤ i) :
    dataOf ar i = default := by
  simp [dataOf, List.getD_eq_getElem?_getD, List.getElem?_eq_none h]

theorem dataOf_lt (ar : Arena) (i : Nat) (h : i < ar.length) :
    dataOf ar i = ar[i] := by
  simp [dataOf, List.getD_eq_getElem?_getD, List.getElem?_eq_getElem h]

theorem length_setNodeId (ar : Arena) (i v : Nat) :
    (setNodeId ar i v).length = ar.length := by
  rcases h : ar[i]? with - | nd <;> simp [setNodeId, h]

theorem dataOf_setNodeId_ne (ar : Arena) (i v j : Nat) (hne : j ≠ i) :
    dataOf (setNodeId ar i v) j = dataOf ar j := by
  rcases h : ar[i]? with - | nd
  · simp [setNodeId, h]
  · simp [setNodeId, h, dataOf, List.getD_eq_getElem?_getD, List.getElem?_set_ne (Ne.symm hne)]

theorem dataOf_setNodeId_self (ar : Arena) (i v : Nat) (hi : i < ar.length) :
    dataOf (setNodeId ar i v) i = { dataOf ar i with nodeId := v } := by
  have h : ar[i]? = some ar[i] := List.getElem?_eq_getElem hi
  simp [setNodeId, h, dataOf, List.getD_eq_getElem?_getD, List.getElem?_set_self hi,
    dataOf_lt ar i hi]

theorem dataOf_append_lt (ar : Arena) (d : NodeData) (i : Nat) (hi : i < ar.length) :
    dataOf (ar ++ [d]) i = dataOf ar i := by
  simp [dataOf, List.getD_eq_getElem?_getD, List.getElem?_append_left hi]

theorem dataOf_append_self (ar : Arena) (d : NodeData) :
    dataOf (ar ++ [d]) ar.length = d := by
  simp [dataOf, List.getD_eq_getElem?_getD]

/-- Arena evolution across the reconstructor loop: the arena only grows; every
pre-existing node keeps the fields the loop ever reads (`nodeId` apart);
`nodeId` itself changes only on `ExpressionStatement` wrappers and freshly
appended nodes; and every appended node is a `Program` produced by the
re-parser. -/
structure Evol (a b : Arena) : Prop where
  len : a.length ≤ b.length
  ftype : ∀ i, i < a.length → (dataOf b i).type = (dataOf a i).type
  fparent : ∀ i, i < a.length → (dataOf b i).parentNode = (dataOf a i).parentNode
  fcallee : ∀ i, i < a.length → (dataOf b i).callee = (dataOf a i).callee
  fid : ∀ i, i < a.length → (dataOf b i).idNode = (dataOf a i).idNode
  fsrc : ∀ i, i < a.length → (dataOf b i).src = (dataOf a i).src
  fname : ∀ i, i < a.length → (dataOf b i).name = (dataOf a i).name
  nid : ∀ i, i < a.length → (dataOf a i).type ≠ "ExpressionStatement" →
    (dataOf a i).type ≠ "Program" → (dataOf b i).nodeId = (dataOf a i).nodeId
  fresh : ∀ i, a.length ≤ i → i < b.length → (dataOf b i).type = "Program"

theorem evol_refl (ar : Arena) : Evol ar ar :=
  ⟨le_refl _, fun _ _ => rfl, fun _ _ => rfl, fun _ _ => rfl, fun _ _ => rfl,
    fun _ _ => rfl, fun _ _ => rfl, fun _ _ _ _ => rfl,
    fun _ h1 h2 => absurd h2 (Nat.not_lt.mpr h1)⟩

theorem evol_trans {a b c : Arena} (hab : Evol a b) (hbc : Evol b c) : Evol a c := by
  refine ⟨le_trans hab.len hbc.len, ?_, ?_, ?_, ?_, ?_, ?_, ?_, ?_⟩
  · intro i hi; rw [hbc.ftype i (lt_of_lt_of_le hi hab.len), hab.ftype i hi]
  · intro i hi; rw [hbc.fparent i (lt_of_lt_of_le hi hab.len), hab.fparent i hi]
  · intro i hi; rw [hbc.fcallee i (lt_of_lt_of_le hi hab.len), hab.fcallee i hi]
  · intro i hi; rw [hbc.fid i (lt_of_lt_of_le hi hab.len), hab.fid i hi]
  · intro i hi; rw [hbc.fsrc i (lt_of_lt_of_le hi hab.len), hab.fsrc i hi]
  · intro i hi; rw [hbc.fname i (lt_of_lt_of_le hi hab.len), hab.fname i hi]
  · intro i hi h1 h2
    have hb := hab.ftype i hi
    rw [hbc.nid i (lt_of_lt_of_le hi hab.len) (by rw [hb]; exact h1) (by rw [hb]; exact h2),
      hab.nid i hi h1 h2]
  · intro i h1 h2
    by_cases hb : i < b.length
    · rw [hbc.ftype i hb]
      exact hab.fresh i h1 hb
    · exact hbc.fresh i (Nat.le_of_not_lt hb) h2

theorem evol_setNodeId (ar : Arena) (i v : Nat)
    (hty : (dataOf ar i).type = "ExpressionStatement" ∨ (dataOf ar i).type = "Program") :
    Evol ar (setNodeId ar i v) := by
  have hlen := length_setNodeId ar i v
  have hfield : ∀ j, j < ar.length →
      dataOf (setNodeId ar i v) j = dataOf ar j ∨
        (j = i ∧ dataOf (setNodeId ar i v) j = { dataOf ar j with nodeId := v }) := by
    intro j hj
    by_cases hji : j = i
    · subst hji
      exact Or.inr ⟨rfl, dataOf_setNodeId_self ar j v hj⟩
    · exact Or.inl (dataOf_setNodeId_ne ar i v j hji)
  refine ⟨le_of_eq hlen.symm, ?_, ?_, ?_, ?_, ?_, ?_, ?_, ?_⟩
  · intro j hj; rcases hfield j hj with h | ⟨-, h⟩ <;> rw [h]
  · intro j hj; rcases hfield j hj with h | ⟨-, h⟩ <;> rw [h]
  · intro j hj; rcases hfield j hj with h | ⟨-, h⟩ <;> rw [h]
  · intro j hj; rcases hfield j hj with h | ⟨-, h⟩ <;> rw [h]
  · intro j hj; rcases hfield j hj with h | ⟨-, h⟩ <;> rw [h]
  · intro j hj; rcases hfield j hj with h | ⟨-, h⟩ <;> rw [h]
  · intro j hj h1 h2
    rcases hfield j hj with h | ⟨hji, h⟩
    · rw [h]
    · subst hji
      rcases hty with hty | hty
      · exact absurd hty h1
      · exact absurd hty h2
  · intro j h1 h2
    rw [hlen] at h2
    exact absurd h2 (Nat.not_lt.mpr h1)

theorem evol_append (ar : Arena) (d : NodeData) (hd : d.type = "Program") :
    Evol ar (ar ++ [d]) := by
  refine ⟨by simp, ?_, ?_, ?_, ?_, ?_, ?_, ?_, ?_⟩
  · intro i hi; rw [dataOf_append_lt ar d i hi]
  · intro i hi; rw [dataOf_append_lt ar d i hi]
  · intro i hi; rw [dataOf_append_lt ar d i hi]
  · intro i hi; rw [dataOf_append_lt ar d i hi]
  · intro i hi; rw [dataOf_append_lt ar d i hi]
  · intro i hi; rw [dataOf_append_lt ar d i hi]
  · intro i hi _ _; rw [dataOf_append_lt ar d i hi]
  · intro i h1 h2
    simp only [List.length_append, List.length_singleton] at h2
    have : i = ar.length := Nat.le_antisymm (Nat.lt_succ_iff.mp h2) h1
    subst this
    rw [dataOf_append_self ar d]
    exact hd

/-- The node references the reconstructor dereferences (parent, callee, and
the parent's `id`) all stay inside the arena — the invariant a parsed flast
tree satisfies by construction. -/
def ArenaClosed (ar : Arena) : Prop :=
  ∀ i, i < ar.length →
    (∀ x ∈ (dataOf ar i).parentNode, x < ar.length) ∧
    (∀ x ∈ (dataOf ar i).callee, x < ar.length) ∧
    (∀ x ∈ (dataOf ar i).idNode, x < ar.length)

theorem lt_length_of_type_ne (ar : Arena) (i : Nat)
    (h : (dataOf ar i).type ≠ "") : i < ar.length := by
  by_contra hge
  rw [dataOf_oor ar i (Nat.le_of_not_lt hge)] at h
  exact h rfl

theorem parentTypeOf_spec (ar : Arena) (e : Nat) (t : String)
    (ht : parentTypeOf ar e = t) (hne : t ≠ "") :
    ∃ p, (dataOf ar e).parentNode = some p ∧ (dataOf ar e).parentNode.getD 0 = p ∧
      (dataOf ar p).type = t := by
  rcases h : (dataOf ar e).parentNode with - | p
  · rw [parentTypeOf, h] at ht
    exact absurd ht.symm hne
  · refine ⟨p, rfl, by simp, ?_⟩
    rw [parentTypeOf, h] at ht
    simpa using ht

/-- Entries whose type drives no branch of the loop body (wrapper statements,
freshly parsed programs, out-of-arena defaults) are left untouched. -/
theorem stepNode_inert_of_type (parseNode : String → Option NodeData) (p : Bool)
    (ar : Arena) (e : Nat)
    (h1 : (dataOf ar e).type ≠ "CallExpression")
    (h2 : (dataOf ar e).type ≠ "FunctionExpression") :
    stepNode parseNode p ar e = (ar, e) := by
  rw [stepNode, if_neg h1, if_neg (fun hh => h2 hh.1)]

theorem setNodeId_type (ar : Arena) (i v j : Nat) :
    (dataOf (setNodeId ar i v) j).type = (dataOf ar j).type := by
  by_cases hj : j = i
  · subst hj
    by_cases hi : j < ar.length
    · rw [dataOf_setNodeId_self ar j v hi]
    · rcases h : ar[j]? with - | nd
      · simp [setNodeId, h]
      · exact absurd (List.getElem?_eq_some_iff.mp h).1 hi
  · rw [dataOf_setNodeId_ne ar i v j hj]

theorem addNameToFE_some_spec (parseNode : String → Option NodeData)
    (hparse : ∀ s nd, parseNode s = some nd → nd.type = "Program")
    (ar : Arena) (n : Nat) (nm : Option String) (r : Arena × Nat)
    (h : addNameToFE parseNode ar n nm = some r) :
    Evol ar r.1 ∧ r.2 < r.1.length ∧ (dataOf r.1 r.2).type = "Program" := by
  rw [addNameToFE] at h
  rcases hp : parseNode (feFuncSrc ar n nm) with - | d
  · rw [hp] at h
    exact Option.noConfusion h
  · rw [hp] at h
    have hd : d.type = "Program" := hparse _ _ hp
    rcases Option.some.inj h with rfl
    refine ⟨evol_append ar _ hd, by simp, ?_⟩
    rw [dataOf_append_self]
    exact hd

/-- `addNameToFE` reads only the node's `src`, its `nodeId` and the passed
name; arenas agreeing on those yield the same outcome shape. -/
theorem feFuncSrc_congr (ar1 ar2 : Arena) (n : Nat) (nm : Option String)
    (hsrc : (dataOf ar2 n).src = (dataOf ar1 n).src)
    (hnid : (dataOf ar2 n).nodeId = (dataOf ar1 n).nodeId) :
    feFuncSrc ar2 n nm = feFuncSrc ar1 n nm := by
  rw [feFuncSrc, feFuncSrc, feName.eq_def, feName.eq_def, hsrc, hnid]

theorem addNameToFE_none_congr (parseNode : String → Option NodeData)
    (ar1 ar2 : Arena) (n : Nat) (nm : Option String)
    (hsrc : (dataOf ar2 n).src = (dataOf ar1 n).src)
    (hnid : (dataOf ar2 n).nodeId = (dataOf ar1 n).nodeId)
    (h : addNameToFE parseNode ar1 n nm = none) :
    addNameToFE parseNode ar2 n nm = none := by
  rw [addNameToFE, feFuncSrc_congr ar1 ar2 n nm hsrc hnid]
  rw [addNameToFE] at h
  rcases hp : parseNode (feFuncSrc ar1 n nm) with - | d
  · rfl
  · rw [hp] at h
    exact Option.noConfusion h

theorem stepNode_evol (parseNode : String → Option NodeData)
    (hparse : ∀ s nd, parseNode s = some nd → nd.type = "Program")
    (p : Bool) (ar : Arena) (e : Nat) :
    Evol ar (stepNode parseNode p ar e).1 := by
  rw [stepNode]
  by_cases h1 : (dataOf ar e).type = "CallExpression"
  · rw [if_pos h1]
    by_cases h2 : parentTypeOf ar e = "ExpressionStatement"
    · rw [if_pos h2]
      obtain ⟨pid, -, hg, hty⟩ := parentTypeOf_spec ar e _ h2 (by decide)
      by_cases h3 : p = false ∧
          exprCalleeTypeOf ar ((dataOf ar e).parentNode.getD 0) = "FunctionExpression"
      · rw [if_pos h3]
        refine evol_setNodeId ar _ _ (Or.inl ?_)
        rw [hg]
        exact hty
      · rw [if_neg h3]
        exact evol_refl ar
    · rw [if_neg h2]
      by_cases h4 : calleeTypeOf ar e = "FunctionExpression"
      · rw [if_pos h4]
        by_cases h5 : p = false
        · rw [if_pos h5]
          rcases han : addNameToFE parseNode ar e (parentIdName ar e) with - | r
          · exact evol_refl ar
          · obtain ⟨hev, hlt, hty⟩ := addNameToFE_some_spec parseNode hparse ar e _ r han
            exact evol_trans hev (evol_setNodeId r.1 r.2 _ (Or.inr hty))
        · rw [if_neg h5]
          exact evol_refl ar
      · rw [if_neg h4]
        exact evol_refl ar
  · rw [if_neg h1]
    by_cases h6 : (dataOf ar e).type = "FunctionExpression" ∧ (dataOf ar e).idNode = none
    · rw [if_pos h6]
      rcases han : addNameToFE parseNode ar e (parentIdName ar e) with - | r
      · exact evol_refl ar
      · exact (addNameToFE_some_spec parseNode hparse ar e _ r han).1
    · rw [if_neg h6]
      exact evol_refl ar

theorem parentTypeOf_transport (ar : Arena) (hclosed : ArenaClosed ar)
    {b c : Arena} (hb : Evol ar b) (hc : Evol ar c) (e : Nat) (he : e < ar.length) :
    parentTypeOf b e = parentTypeOf c e := by
  rw [parentTypeOf, parentTypeOf, hb.fparent e he, hc.fparent e he]
  rcases hp : (dataOf ar e).parentNode with - | pp
  · rfl
  · have hlt : pp < ar.length := (hclosed e he).1 pp (by simp [hp])
    simp only [Option.map_some', Option.getD_some]
    rw [hb.ftype pp hlt, hc.ftype pp hlt]

theorem calleeTypeOf_transport (ar : Arena) (hclosed : ArenaClosed ar)
    {b c : Arena} (hb : Evol ar b) (hc : Evol ar c) (e : Nat) (he : e < ar.length) :
    calleeTypeOf b e = calleeTypeOf c e := by
  rw [calleeTypeOf, calleeTypeOf, hb.fcallee e he, hc.fcallee e he]
  rcases hp : (dataOf ar e).callee with - | cc
  · rfl
  · have hlt : cc < ar.length := (hclosed e he).2.1 cc (by simp [hp])
    simp only [Option.map_some', Option.getD_some]
    rw [hb.ftype cc hlt, hc.ftype cc hlt]

theorem parentIdName_transport (ar : Arena) (hclosed : ArenaClosed ar)
    {b c : Arena} (hb : Evol ar b) (hc : Evol ar c) (e : Nat) (he : e < ar.length) :
    parentIdName b e = parentIdName c e := by
  rw [parentIdName, parentIdName, hb.fparent e he, hc.fparent e he]
  rcases hp : (dataOf ar e).parentNode with - | pp
  · rfl
  · have hppl : pp < ar.length := (hclosed e he).1 pp (by simp [hp])
    simp only [Option.some_bind]
    rw [hb.fid pp hppl, hc.fid pp hppl]
    rcases hq : (dataOf ar pp).idNode with - | idn
    · rfl
    · have hil : idn < ar.length := (hclosed pp hppl).2.2 idn (by simp [hq])
      simp only [Option.map_some']
      rw [hb.fname idn hil, hc.fname idn hil]

/-- The central stability lemma: whatever node the loop body leaves in
`nodes[i]`, processing that node again — in any later arena state — changes
nothing and returns the node unchanged. -/
theorem stepNode_stable (parseNode : String → Option NodeData)
    (hparse : ∀ s nd, parseNode s = some nd → nd.type = "Program")
    (p : Bool) (ar : Arena) (hclosed : ArenaClosed ar)
    (ar0 : Arena) (h0 : Evol ar ar0) (e : Nat) :
    ∀ ar'', Evol (stepNode parseNode p ar0 e).1 ar'' →
      stepNode parseNode p ar'' (stepNode parseNode p ar0 e).2
        = (ar'', (stepNode parseNode p ar0 e).2) := by
  intro ar'' hev
  have hev0 : Evol ar0 (stepNode parseNode p ar0 e).1 := stepNode_evol parseNode hparse p ar0 e
  have hevA : Evol ar0 ar'' := evol_trans hev0 hev
  have hevO : Evol ar ar'' := evol_trans h0 hevA
  by_cases h1 : (dataOf ar0 e).type = "CallExpression"
  · by_cases h2 : parentTypeOf ar0 e = "ExpressionStatement"
    · -- the entry is rewritten to its ExpressionStatement wrapper
      obtain ⟨pid, hpsome, hg, hty⟩ := parentTypeOf_spec ar0 e _ h2 (by decide)
      have hpl : pid < ar0.length := lt_length_of_type_ne ar0 pid (by rw [hty]; decide)
      have hstep2 : (stepNode parseNode p ar0 e).2 = pid := by
        rw [stepNode, if_pos h1, if_pos h2]
        by_cases h3 : p = false ∧
            exprCalleeTypeOf ar0 ((dataOf ar0 e).parentNode.getD 0) = "FunctionExpression"
        · rw [if_pos h3]
          exact hg
        · rw [if_neg h3]
          exact hg
      have htype1 : (dataOf (stepNode parseNode p ar0 e).1 pid).type = "ExpressionStatement" := by
        rw [stepNode, if_pos h1, if_pos h2]
        by_cases h3 : p = false ∧
            exprCalleeTypeOf ar0 ((dataOf ar0 e).parentNode.getD 0) = "FunctionExpression"
        · rw [if_pos h3]
          simp only [setNodeId_type]
          exact hty
        · rw [if_neg h3]
          exact hty
      have hlen1 : pid < (stepNode parseNode p ar0 e).1.length :=
        lt_of_lt_of_le hpl hev0.len
      have htype'' : (dataOf ar'' pid).type = "ExpressionStatement" := by
        rw [hev.ftype pid hlen1, htype1]
      rw [hstep2]
      exact stepNode_inert_of_type parseNode p ar'' pid
        (by rw [htype'']; decide) (by rw [htype'']; decide)
    · by_cases h4 : calleeTypeOf ar0 e = "FunctionExpression"
      · by_cases h5 : p = false
        · rcases han : addNameToFE parseNode ar0 e (parentIdName ar0 e) with - | r
          · -- re-parse failed: the entry is left unchanged, and will fail again
            have hstep : stepNode parseNode p ar0 e = (ar0, e) := by
              rw [stepNode, if_pos h1, if_neg h2, if_pos h4, if_pos h5, han]
            rw [hstep]
            have hel : e < ar.length := by
              by_contra hge
              by_cases hin : e < ar0.length
              · have := h0.fresh e (Nat.le_of_not_lt hge) hin
                rw [this] at h1
                exact absurd h1 (by decide)
              · rw [dataOf_oor ar0 e (Nat.le_of_not_lt hin)] at h1
                exact absurd h1 (by decide)
            have h0'' : Evol ar ar'' := by
              rw [hstep] at hev
              exact evol_trans h0 hev
            have htyA : (dataOf ar e).type = "CallExpression" := by
              rw [← h0.ftype e hel]
              exact h1
            have h1'' : (dataOf ar'' e).type = "CallExpression" := by
              rw [h0''.ftype e hel]
              exact htyA
            have h2'' : parentTypeOf ar'' e ≠ "ExpressionStatement" := by
              rw [parentTypeOf_transport ar hclosed h0'' h0 e hel]
              exact h2
            have h4'' : calleeTypeOf ar'' e = "FunctionExpression" := by
              rw [calleeTypeOf_transport ar hclosed h0'' h0 e hel]
              exact h4
            have hnidA : (dataOf ar'' e).nodeId = (dataOf ar0 e).nodeId := by
              rw [h0''.nid e hel (by rw [htyA]; decide) (by rw [htyA]; decide),
                ← h0.nid e hel (by rw [htyA]; decide) (by rw [htyA]; decide)]
            have hsrcA : (dataOf ar'' e).src = (dataOf ar0 e).src := by
              rw [h0''.fsrc e hel, ← h0.fsrc e hel]
            have han'' : addNameToFE parseNode ar'' e (parentIdName ar'' e) = none := by
              rw [parentIdName_transport ar hclosed h0'' h0 e hel]
              exact addNameToFE_none_congr parseNode ar0 ar'' e _ hsrcA hnidA han
            rw [stepNode, if_pos h1'', if_neg h2'', if_pos h4'', if_pos h5, han'']
          · -- re-parse succeeded: the entry becomes a fresh Program node
            have hstep : stepNode parseNode p ar0 e =
                (setNodeId r.1 r.2 ((dataOf r.1 r.2).nodeId + LARGE_NUMBER), r.2) := by
              rw [stepNode, if_pos h1, if_neg h2, if_pos h4, if_pos h5, han]
            obtain ⟨hevr, hlt, htyr⟩ := addNameToFE_some_spec parseNode hparse ar0 e _ r han
            have htyr1 : (dataOf (stepNode parseNode p ar0 e).1 r.2).type = "Program" := by
              rw [hstep]
              simp only [setNodeId_type]
              exact htyr
            have hlen1 : r.2 < (stepNode parseNode p ar0 e).1.length := by
              rw [hstep]
              simpa [length_setNodeId] using hlt
            have hty'' : (dataOf ar'' r.2).type = "Program" := by
              rw [hev.ftype r.2 hlen1, htyr1]
            have hstep2 : (stepNode parseNode p ar0 e).2 = r.2 := by rw [hstep]
            rw [hstep2]
            exact stepNode_inert_of_type parseNode p ar'' r.2
              (by rw [hty'']; decide) (by rw [hty'']; decide)
        · -- preserveOrder: nothing happens, and nothing will
          have hstep : stepNode parseNode p ar0 e = (ar0, e) := by
            rw [stepNode, if_pos h1, if_neg h2, if_pos h4, if_neg h5]
          rw [hstep]
          have hel : e < ar.length := by
            by_contra hge
            by_cases hin : e < ar0.length
            · have := h0.fresh e (Nat.le_of_not_lt hge) hin
              rw [this] at h1
              exact absurd h1 (by decide)
            · rw [dataOf_oor ar0 e (Nat.le_of_not_lt hin)] at h1
              exact absurd h1 (by decide)
          have h0'' : Evol ar ar'' := by
            rw [hstep] at hev
            exact evol_trans h0 hev
          have h1'' : (dataOf ar'' e).type = "CallExpression" := by
            rw [h0''.ftype e hel, ← h0.ftype e hel]
            exact h1
          have h2'' : parentTypeOf ar'' e ≠ "ExpressionStatement" := by
            rw [parentTypeOf_transport ar hclosed h0'' h0 e hel]
            exact h2
          have h4'' : calleeTypeOf ar'' e = "FunctionExpression" := by
            rw [calleeTypeOf_transport ar hclosed h0'' h0 e hel]
            exact h4
          rw [stepNode, if_pos h1'', if_neg h2'', if_pos h4'', if_neg h5]
      · -- a call whose callee is no function expression: inert
        have hstep : stepNode parseNode p ar0 e = (ar0, e) := by
          rw [stepNode, if_pos h1, if_neg h2, if_neg h4]
        rw [hstep]
        have hel : e < ar.length := by
          by_contra hge
          by_cases hin : e < ar0.length
          · have := h0.fresh e (Nat.le_of_not_lt hge) hin
            rw [this] at h1
            exact absurd h1 (by decide)
          · rw [dataOf_oor ar0 e (Nat.le_of_not_lt hin)] at h1
            exact absurd h1 (by decide)
        have h0'' : Evol ar ar'' := by
          rw [hstep] at hev
          exact evol_trans h0 hev
        have h1'' : (dataOf ar'' e).type = "CallExpression" := by
          rw [h0''.ftype e hel, ← h0.ftype e hel]
          exact h1
        have h2'' : parentTypeOf ar'' e ≠ "ExpressionStatement" := by
          rw [parentTypeOf_transport ar hclosed h0'' h0 e hel]
          exact h2
        have h4'' : calleeTypeOf ar'' e ≠ "FunctionExpression" := by
          rw [calleeTypeOf_transport ar hclosed h0'' h0 e hel]
          exact h4
        rw [stepNode, if_pos h1'', if_neg h2'', if_neg h4'']
  · by_cases h6 : (dataOf ar0 e).type = "FunctionExpression" ∧ (dataOf ar0 e).idNode = none
    · rcases han : addNameToFE parseNode ar0 e (parentIdName ar0 e) with - | r
      · -- anonymous function expression whose re-parse failed: inert
        have hstep : stepNode parseNode p ar0 e = (ar0, e) := by
          rw [stepNode, if_neg h1, if_pos h6, han]
        rw [hstep]
        have hel : e < ar.length := by
          by_contra hge
          by_cases hin : e < ar0.length
          · have := h0.fresh e (Nat.le_of_not_lt hge) hin
            rw [this] at h6
            exact absurd h6.1 (by decide)
          · rw [dataOf_oor ar0 e (Nat.le_of_not_lt hin)] at h6
            exact absurd h6.1 (by decide)
        have h0'' : Evol ar ar'' := by
          rw [hstep] at hev
          exact evol_trans h0 hev
        have htyA : (dataOf ar e).type = "FunctionExpression" := by
          rw [← h0.ftype e hel]
          exact h6.1
        have h6'' : (dataOf ar'' e).type = "FunctionExpression" ∧
            (dataOf ar'' e).idNode = none := by
          constructor
          · rw [h0''.ftype e hel]
            exact htyA
          · rw [h0''.fid e hel, ← h0.fid e hel]
            exact h6.2
        have h1'' : (dataOf ar'' e).type ≠ "CallExpression" := by
          rw [h6''.1]; decide
        have hnidA : (dataOf ar'' e).nodeId = (dataOf ar0 e).nodeId := by
          rw [h0''.nid e hel (by rw [htyA]; decide) (by rw [htyA]; decide),
            ← h0.nid e hel (by rw [htyA]; decide) (by rw [htyA]; decide)]
        have hsrcA : (dataOf ar'' e).src = (dataOf ar0 e).src := by
          rw [h0''.fsrc e hel, ← h0.fsrc e hel]
        have han'' : addNameToFE parseNode ar'' e (parentIdName ar'' e) = none := by
          rw [parentIdName_transport ar hclosed h0'' h0 e hel]
          exact addNameToFE_none_congr parseNode ar0 ar'' e _ hsrcA hnidA han
        rw [stepNode, if_neg h1'', if_pos h6'', han'']
      · -- anonymous function expression renamed: a fresh Program node
        have hstep : stepNode parseNode p ar0 e = r := by
          rw [stepNode, if_neg h1, if_pos h6, han]
        obtain ⟨hevr, hlt, htyr⟩ := addNameToFE_some_spec parseNode hparse ar0 e _ r han
        have hlen1 : r.2 < (stepNode parseNode p ar0 e).1.length := by
          rw [hstep]
          exact hlt
        have hty'' : (dataOf ar'' r.2).type = "Program" := by
          rw [hev.ftype r.2 hlen1]
          rw [hstep]
          exact htyr
        have hstep2 : (stepNode parseNode p ar0 e).2 = r.2 := by rw [hstep]
        rw [hstep2]
        exact stepNode_inert_of_type parseNode p ar'' r.2
          (by rw [hty'']; decide) (by rw [hty'']; decide)
    · -- inert entry (neither a call nor an anonymous function expression)
      have hstep : stepNode parseNode p ar0 e = (ar0, e) := by
        rw [stepNode, if_neg h1, if_neg h6]
      rw [hstep]
      have h0'' : Evol ar ar'' := by
        rw [hstep] at hev
        exact evol_trans h0 hev
      by_cases hel : e < ar.length
      · have h1'' : (dataOf ar'' e).type ≠ "CallExpression" := by
          rw [h0''.ftype e hel, ← h0.ftype e hel]
          exact h1
        have h6'' : ¬((dataOf ar'' e).type = "FunctionExpression" ∧
            (dataOf ar'' e).idNode = none) := by
          rw [h0''.ftype e hel, ← h0.ftype e hel, h0''.fid e hel, ← h0.fid e hel]
          exact h6
        rw [stepNode, if_neg h1'', if_neg h6'']
      · by_cases hin : e < ar0.length
        · have hfr := h0.fresh e (Nat.le_of_not_lt hel) hin
          have hty'' : (dataOf ar'' e).type = "Program" := by
            rw [hevA.ftype e hin]
            exact hfr
          exact stepNode_inert_of_type parseNode p ar'' e
            (by rw [hty'']; decide) (by rw [hty'']; decide)
        · by_cases hin'' : e < ar''.length
          · have hty'' : (dataOf ar'' e).type = "Program" :=
              hevA.fresh e (Nat.le_of_not_lt hin) hin''
            exact stepNode_inert_of_type parseNode p ar'' e
              (by rw [hty'']; decide) (by rw [hty'']; decide)
          · have hty'' : dataOf ar'' e = default :=
              dataOf_oor ar'' e (Nat.le_of_not_lt hin'')
            exact stepNode_inert_of_type parseNode p ar'' e
              (by rw [hty'']; decide) (by rw [hty'']; decide)

theorem runLoop_spec (parseNode : String → Option NodeData)
    (hparse : ∀ s nd, parseNode s = some nd → nd.type = "Program")
    (p : Bool) (ar : Arena) (hclosed : ArenaClosed ar) :
    ∀ (ns : List Nat) (ar0 : Arena), Evol ar ar0 →
      Evol ar0 (runLoop parseNode p ar0 ns).1 ∧
      ∀ cur ∈ (runLoop parseNode p ar0 ns).2, ∀ ar'',
        Evol (runLoop parseNode p ar0 ns).1 ar'' →
        stepNode parseNode p ar'' cur = (ar'', cur) := by
  intro ns
  induction ns with
  | nil =>
    intro ar0 h0
    exact ⟨evol_refl ar0, by simp [runLoop]⟩
  | cons e es ih =>
    intro ar0 h0
    have hse : Evol ar0 (stepNode parseNode p ar0 e).1 :=
      stepNode_evol parseNode hparse p ar0 e
    obtain ⟨hrest_ev, hrest_st⟩ := ih (stepNode parseNode p ar0 e).1 (evol_trans h0 hse)
    have hrun : runLoop parseNode p ar0 (e :: es)
        = ((runLoop parseNode p (stepNode parseNode p ar0 e).1 es).1,
            (stepNode parseNode p ar0 e).2 ::
              (runLoop parseNode p (stepNode parseNode p ar0 e).1 es).2) := by
      rw [runLoop]
    rw [hrun]
    refine ⟨evol_trans hse hrest_ev, ?_⟩
    intro cur hcur ar'' hev
    rcases List.mem_cons.mp hcur with rfl | hmem
    · exact stepNode_stable parseNode hparse p ar hclosed ar0 h0 e ar''
        (evol_trans hrest_ev hev)
    · exact hrest_st cur hmem ar'' hev

theorem runLoop_inert (parseNode : String → Option NodeData) (p : Bool) (ar1 : Arena) :
    ∀ ns1 : List Nat,
      (∀ cur ∈ ns1, ∀ ar'', Evol ar1 ar'' → stepNode parseNode p ar'' cur = (ar'', cur)) →
      runLoop parseNode p ar1 ns1 = (ar1, ns1) := by
  intro ns1
  induction ns1 with
  | nil => intro h; rfl
  | cons e es ih =>
    intro h
    have hstep : stepNode parseNode p ar1 e = (ar1, e) :=
      h e (List.mem_cons_self _ _) ar1 (evol_refl ar1)
    have hrest := ih (fun cur hm => h cur (List.mem_cons_of_mem _ hm))
    rw [runLoop, hstep, hrest]

/-- **C5.** The reconstructor's text output is deterministic across repeated
calls: invoking `createOrderedSrc` a second time — on the arena as mutated by
the first call and on the caller's array as updated in place by the first
call, with the same `preserveOrder` — produces the identical output text.
(Hypotheses: the external re-parser yields `Program` nodes, and the input
arena's parent/callee/id links stay inside the arena, as holds for every
parsed tree.) -/
theorem createOrderedSrc_idempotent (parseNode : String → Option NodeData)
    (ar : Arena) (nodes : List Nat) (preserveOrder : Bool)
    (hparse : ∀ s nd, parseNode s = some nd → nd.type = "Program")
    (hclosed : ArenaClosed ar) :
    (createOrderedSrc parseNode
        (createOrderedSrc parseNode ar nodes preserveOrder).arena
        (createOrderedSrc parseNode ar nodes preserveOrder).nodes
        preserveOrder).out
      = (createOrderedSrc parseNode ar nodes preserveOrder).out := by
  obtain ⟨-, hst⟩ :=
    runLoop_spec parseNode hparse preserveOrder ar hclosed nodes ar (evol_refl ar)
  have hfix : runLoop parseNode preserveOrder
      (runLoop parseNode preserveOrder ar nodes).1
      (runLoop parseNode preserveOrder ar nodes).2
      = ((runLoop parseNode preserveOrder ar nodes).1,
          (runLoop parseNode preserveOrder ar nodes).2) :=
    runLoop_inert parseNode preserveOrder _ _ hst
  simp only [createOrderedSrc]
  rw [hfix]

/-- Witness for C5 at a concrete input: a one-statement arena. -/
theorem createOrderedSrc_idempotent_witness :
    (createOrderedSrc (fun _ => none)
        (createOrderedSrc (fun _ => none)
          [{ type := "ExpressionStatement", src := "a();" }] [0] false).arena
        (createOrderedSrc (fun _ => none)
          [{ type := "ExpressionStatement", src := "a();" }] [0] false).nodes
        false).out
      = (createOrderedSrc (fun _ => none)
          [{ type := "ExpressionStatement", src := "a();" }] [0] false).out :=
  createOrderedSrc_idempotent (fun _ => none)
    [{ type := "ExpressionStatement", src := "a();" }] [0] false
    (fun _ _ h => Option.noConfusion h)
    (fun i hi => by
      have : i = 0 := Nat.lt_one_iff.mp (by simpa using hi)
      subst this
      refine ⟨?_, ?_, ?_⟩ <;> intro x hx <;> simp [dataOf] at hx)

/-- **C10.** `doesDescendantMatchCondition` tests the target node itself: if
the condition holds on the target, the call returns `true` (resp. the target
node itself when `returnNode` is true) regardless of the descendants; a
`null`/`undefined` target or a non-function condition yields `false`. -/
theorem doesDescendantMatchCondition_tests_target (ar : Arena) (fuel : Nat)
    (t : Nat) (c : NodeData → Bool) (rn rn' rn'' : Bool)
    (cond' : Option (NodeData → Bool))
    (hfuel : 0 < fuel) (hc : c (dataOf ar t) = true) :
    doesDescendantMatchCondition ar fuel (some t) (some c) rn
        = (if rn then .nodeRes t else .boolRes true) ∧
      doesDescendantMatchCondition ar fuel none cond' rn' = .boolRes false ∧
      doesDescendantMatchCondition ar fuel (some t) none rn'' = .boolRes false := by
  refine ⟨?_, rfl, rfl⟩
  obtain ⟨fuel', rfl⟩ := Nat.exists_eq_add_of_lt hfuel
  simp [doesDescendantMatchCondition, descMatchLoop, Nat.add_comm, hc]

/-- Witness for C10 at a concrete two-node arena: the condition holds on the
root only; the call reports a match even though no strict descendant
matches. -/
theorem doesDescendantMatchCondition_tests_target_witness :
    (0 : Nat) < 3 ∧
      (fun nd => nd.isMarked) (dataOf [{ isMarked := true, childNodes := [1] }, {}] 0) = true ∧
      doesDescendantMatchCondition [{ isMarked := true, childNodes := [1] }, {}] 3
        (some 0) (some fun nd => nd.isMarked) true
        = (if true then .nodeRes 0 else .boolRes true) :=
  ⟨by decide, by decide,
    (doesDescendantMatchCondition_tests_target
      [{ isMarked := true, childNodes := [1] }, {}] 3 0 (fun nd => nd.isMarked)
      true false false none (by decide) (by decide)).1⟩

end Restringer
